import Mathlib

set_option maxRecDepth 4000

/-!
A verification development for the SchnauzerUI interpreter core
(src/src/interpreter.rs).  The statement/command AST, the variable
environment and the statement rendering are owned by collaborator modules
that are not part of the interpreter source; they are modelled from the
design document.  Every interpreter operation below is a direct
transcription of the corresponding function in interpreter.rs, with the
browser backend abstracted as a deterministic oracle that answers the
n-th external call and with every external call recorded in a trace.
-/

namespace SchnauzerUI

abbrev Str := String

/-- Severity of an error within the interpreter (interpreter.rs lines 15-18).
On a Recoverable error, the script goes to the next catch-error: stmt.
On an Exit error, the interpret method early returns. -/
inductive Severity where
  | Exit
  | Recoverable
deriving DecidableEq

/-- Type alias for errors in the interpreter (interpreter.rs line 21):
an error message paired with its Severity. -/
abbrev RuntimeError := Str × Severity

/-- Abstract handle to a page element (stands for a thirtyfour WebElement). -/
structure Elem where
  id : Nat
deriving DecidableEq

/-- Element query selectors, mirroring the thirtyfour By selectors used in
Interpreter.locate (interpreter.rs 488-585). -/
inductive By where
  | XPath (s : Str)
  | Id (s : Str)
  | Name (s : Str)
  | ClassName (s : Str)
deriving DecidableEq

/-- An element query together with its wait configuration: none models
.nowait(), some (t, i) models .wait(t seconds, i seconds poll interval). -/
structure LocateQuery where
  by_ : By
  wait : Option (Nat × Nat)
deriving DecidableEq

/-- One external (browser-facing) call made by the interpreter. -/
inductive Effect where
  | query (q : LocateQuery)
  | scroll (e : Elem)
  | toJson (e : Elem)
  | execScript (src : Str) (args : List Elem)
  | screenshot
  | refresh
  | clickElem (e : Elem)
  | clear (e : Elem)
  | sendKeys (e : Elem) (txt : Str)
  | readText (e : Elem)
  | tagName (e : Elem)
  | queryParent (e : Elem)
  | wrapSelect (e : Elem)
  | selectByText (e : Elem) (txt : Str)
  | dragElem (src tgt : Elem)
  | goto (url : Str)
  | sleep (secs : Nat)
  | closeWindow
deriving DecidableEq

/-- Response of the browser backend to one external call. -/
inductive DResp where
  | ok
  | err
  | elem (e : Elem)
  | str (s : Str)
  | bytes (b : List Nat)
deriving DecidableEq

/-- Modelled from the spec: a command parameter (parser.rs is not under src/):
either a literal string or a variable reference, resolved at execution time. -/
inductive CmdParam where
  | String (s : Str)
  | Variable (v : Str)
deriving DecidableEq

/-- Modelled from the spec: the leaf commands of the language
(parser.rs is not under src/), exactly the variants dispatched by
Interpreter.execute_cmd (interpreter.rs 303-327). -/
inductive Cmd where
  | Locate (l : CmdParam)
  | LocateNoScroll (l : CmdParam)
  | Type_ (t : CmdParam)
  | Click
  | Refresh
  | TryAgain
  | Screenshot
  | ReadTo (name : Str)
  | Url (u : CmdParam)
  | Press (k : CmdParam)
  | Chill (c : CmdParam)
  | Select (c : CmdParam)
  | DragTo (c : CmdParam)
  | Upload (c : CmdParam)
deriving DecidableEq

/-- Modelled from the spec: a command chain (parser.rs is not under src/):
a left-hand command plus an optional and-linked right-hand chain. -/
inductive CmdStmt where
  | mk (lhs : Cmd) (rhs : Option CmdStmt)

def CmdStmt.decEq : (a b : CmdStmt) → Decidable (a = b)
  | .mk l1 none, .mk l2 none =>
    if h : l1 = l2 then isTrue (by rw [h])
    else isFalse (by intro hh; injection hh with h1 h2; exact h h1)
  | .mk _ none, .mk _ (some _) =>
    isFalse (by intro hh; injection hh with h1 h2; exact Option.noConfusion h2)
  | .mk _ (some _), .mk _ none =>
    isFalse (by intro hh; injection hh with h1 h2; exact Option.noConfusion h2)
  | .mk l1 (some r1), .mk l2 (some r2) =>
    match CmdStmt.decEq r1 r2 with
    | isTrue hr =>
      if h : l1 = l2 then isTrue (by rw [h, hr])
      else isFalse (by intro hh; injection hh with h1 h2; exact h h1)
    | isFalse hr =>
      isFalse (by
        intro hh; injection hh with h1 h2; injection h2 with h3; exact hr h3)

instance : DecidableEq CmdStmt := CmdStmt.decEq

/-- Modelled from the spec: a conditional statement (parser.rs not under src/):
a probe command and a body command chain. -/
structure IfStmt where
  condition : Cmd
  then_branch : CmdStmt
deriving DecidableEq

/-- Modelled from the spec: a variable assignment statement. -/
structure SetVariableStmt where
  variable_name : Str
  value : Str
deriving DecidableEq

/-- Modelled from the spec: the statement variants (parser.rs not under src/),
exactly the variants matched by Interpreter.execute_stmt. -/
inductive Stmt where
  | Cmd (cs : CmdStmt)
  | If (is : IfStmt)
  | SetVariable (sv : SetVariableStmt)
  | Comment (s : Str)
  | CatchErr (cs : CmdStmt)
  | SetTryAgainFieldToFalse
deriving DecidableEq

/-- Modelled from the spec: the variable environment (environment.rs is not
under src/): a name to string store with set and get. -/
def Environment : Type := List (Str × Str)

def Environment.new : Environment := []

def Environment.set_variable (env : Environment) (name value : Str) : Environment :=
  (name, value) :: env

def Environment.get_variable (env : Environment) (name : Str) : Option Str :=
  match env with
  | [] => none
  | (n, v) :: rest => if n = name then some v else Environment.get_variable rest name

/-- Modelled from the spec: rendering of a command parameter for the report
log (the Display implementations live in parser.rs, not under src/). -/
def CmdParam.render : CmdParam → Str
  | .String s => "\x22" ++ s ++ "\x22"
  | .Variable v => v

/-- Modelled from the spec: rendering of a command for the report log. -/
def Cmd.render : Cmd → Str
  | .Locate l => "locate " ++ l.render
  | .LocateNoScroll l => "locate-no-scroll " ++ l.render
  | .Type_ t => "type " ++ t.render
  | .Click => "click"
  | .Refresh => "refresh"
  | .TryAgain => "try-again"
  | .Screenshot => "screenshot"
  | .ReadTo n => "read-to " ++ n
  | .Url u => "url " ++ u.render
  | .Press k => "press " ++ k.render
  | .Chill c => "chill " ++ c.render
  | .Select c => "select " ++ c.render
  | .DragTo c => "drag-to " ++ c.render
  | .Upload c => "upload " ++ c.render

/-- Modelled from the spec: rendering of a command chain for the report log. -/
def CmdStmt.render : CmdStmt → Str
  | .mk lhs none => lhs.render
  | .mk lhs (some rhs) => lhs.render ++ " and " ++ rhs.render

/-- Modelled from the spec: rendering of a statement for the report log
(one line per dequeued statement). -/
def Stmt.toString : Stmt → Str
  | .Cmd cs => cs.render
  | .If is => "if " ++ is.condition.render ++ " then " ++ is.then_branch.render
  | .SetVariable sv => "save " ++ sv.value ++ " as " ++ sv.variable_name
  | .Comment s => s
  | .CatchErr cs => "catch-error: " ++ cs.render
  | .SetTryAgainFieldToFalse => "set-try-again-to-false"

/-- The interpreter state (struct Interpreter, interpreter.rs 24-55), with the
browser backend abstracted as the oracle drv: it answers the n-th external
call, where n is the number of effects recorded so far; effects is the trace
of all external calls made. -/
structure St where
  drv : Nat → Effect → DResp
  effects : List Effect
  stmts : List Stmt
  environment : Environment
  curr_elem : Option Elem
  had_error : Bool
  stmts_since_last_error_handling : List Stmt
  tried_again : Bool
  log_buffer : Str
  screenshot_buffer : List (List Nat)
  is_demo : Bool

/-- State-and-error monad for interpreter operations: Rust methods taking
&mut self and returning RuntimeResult<T, String>. -/
def M (α : Type) : Type := St → Except RuntimeError α × St

def M.pure (a : α) : M α := fun s => (.ok a, s)

def M.bind (x : M α) (f : α → M β) : M β := fun s =>
  match x s with
  | (.ok a, s') => f a s'
  | (.error e, s') => (.error e, s')

instance : Monad M where
  pure := M.pure
  bind := M.bind

def M.get : M St := fun s => (.ok s, s)

def M.modifyS (f : St → St) : M Unit := fun s => (.ok (), f s)

/-- Interpreter.error (interpreter.rs 127-133): produce an error with the
appropriate severity based on whether we are currently trying stmts again. -/
def error (s : St) (msg : Str) : RuntimeError :=
  if s.tried_again then (msg, Severity.Exit) else (msg, Severity.Recoverable)

/-- Fail with a message, severity computed by error from the current state
(models map_err(|_| self.error(msg))? and ok_or(self.error(msg))?). -/
def throwErr (msg : Str) : M α := fun s => (.error (error s msg), s)

/-- Require an ok response, else fail with the given message: models
.map_err(|_| self.error(msg))? on a unit-valued backend call. -/
def check (r : DResp) (msg : Str) : M Unit :=
  if r = DResp.ok then Pure.pure () else throwErr msg

/-- Require a string response, else fail: models ...await.map_err(...)? on a
string-valued backend call. -/
def asStr (r : DResp) (msg : Str) : M Str :=
  match r with
  | .str t => Pure.pure t
  | _ => throwErr msg

/-- Require an element response, else fail. -/
def asElem (r : DResp) (msg : Str) : M Elem :=
  match r with
  | .elem e => Pure.pure e
  | _ => throwErr msg

/-- Require a byte-buffer response, else fail. -/
def asBytes (r : DResp) (msg : Str) : M (List Nat) :=
  match r with
  | .bytes b => Pure.pure b
  | _ => throwErr msg

/-- Perform one external call: consult the oracle and record the effect. -/
def driverCall (eff : Effect) (s : St) : DResp × St :=
  (s.drv s.effects.length eff, { s with effects := s.effects ++ [eff] })

def callDriver (eff : Effect) : M DResp := fun s =>
  ((Except.ok (driverCall eff s).1 : Except RuntimeError DResp), (driverCall eff s).2)

/-- Record an external effect that cannot fail (a cooperative sleep). -/
def recordEffect (eff : Effect) : M Unit :=
  M.modifyS fun s => { s with effects := s.effects ++ [eff] }

/-- Interpreter.log_cmd (interpreter.rs 76-79). -/
def log_cmd (msg : Str) (s : St) : St :=
  { s with log_buffer := s.log_buffer ++ ("Info: " ++ msg ++ "\n") }

/-- Interpreter.log_err (interpreter.rs 81-84). -/
def log_err (msg : Str) (s : St) : St :=
  { s with log_buffer := s.log_buffer ++ ("Error: " ++ msg ++ "\n") }

def highlightScript : Str := "arguments[0].style.border = \x275px solid purple\x27;"

def unhighlightScript : Str := "arguments[0].style.border = \x27none\x27;"

/-- The conditional scroll at the top of Interpreter.set_curr_elem
(interpreter.rs 143-147). -/
def scrollStep (elem : Elem) (scroll_into_view : Bool) : M Unit :=
  if scroll_into_view then do
    let r ← callDriver (.scroll elem)
    check r "Error scrolling web element into view"
  else pure ()

/-- The demo-mode highlighting block of Interpreter.set_curr_elem
(interpreter.rs 150-179): highlight the new element with a purple border,
then best-effort remove the border from the previously located element
(that second execute call's failure is explicitly ignored, but the
jsonification of the previous element is not). -/
def demoStep (elem : Elem) : M Unit := do
  let s ← M.get
  if s.is_demo then do
    let j ← callDriver (.toJson elem)
    check j "Error jsonifying element"
    let h ← callDriver (.execScript highlightScript [elem])
    check h "Error highlighting element"
    let s2 ← M.get
    match s2.curr_elem with
    | some curr => do
      let j2 ← callDriver (.toJson curr)
      check j2 "Error jsonifying element"
      let _ ← callDriver (.execScript unhighlightScript [curr])
      pure ()
    | none => pure ()
  else pure ()

/-- Interpreter.set_curr_elem (interpreter.rs 137-184): optionally scroll the
element into view, in demo mode highlight it (and best-effort unhighlight the
previous element), then set it as the current element. -/
def set_curr_elem (elem : Elem) (scroll_into_view : Bool) : M Unit := do
  scrollStep elem scroll_into_view
  demoStep elem
  M.modifyS fun st => { st with curr_elem := some elem }

/-- Interpreter.get_curr_elem (interpreter.rs 188-192). -/
def get_curr_elem : M Elem := do
  let s ← M.get
  match s.curr_elem with
  | some e => pure e
  | none => throwErr "No element currently located. Try using the locate command"

/-- Interpreter.set_variable (interpreter.rs 248-256). -/
def set_variable (sv : SetVariableStmt) (s : St) : St :=
  { s with environment := s.environment.set_variable sv.variable_name sv.value }

/-- Interpreter.get_variable (interpreter.rs 259-263). -/
def get_variable (name : Str) : M Str := do
  let s ← M.get
  match s.environment.get_variable name with
  | some v => pure v
  | none => throwErr "Variable is not yet defined"

/-- Interpreter.resolve (interpreter.rs 268-273). -/
def resolve (cmd_param : CmdParam) : M Str :=
  match cmd_param with
  | .String s => pure s
  | .Variable v => get_variable v

/-- Interpreter.try_again (interpreter.rs 423-431): set tried_again, push the
marker statement onto the pending-statement vector, append the replay buffer
onto the same end, and clear the buffer. -/
def try_again : M Unit :=
  M.modifyS fun s =>
    { s with
      tried_again := true,
      stmts := (s.stmts ++ [Stmt.SetTryAgainFieldToFalse]) ++ s.stmts_since_last_error_handling,
      stmts_since_last_error_handling := [] }

/-- Interpreter.screenshot (interpreter.rs 434-443): log an info line, then
attempt the capture, appending the bytes to the screenshot buffer. -/
def screenshot : M Unit := do
  M.modifyS (log_cmd "Taking a screenshot")
  let r ← callDriver .screenshot
  let ss ← asBytes r "Error taking screenshot."
  M.modifyS fun s => { s with screenshot_buffer := s.screenshot_buffer ++ [ss] }

/-- Interpreter.refresh (interpreter.rs 446-451). -/
def refresh : M Unit := do
  let r ← callDriver .refresh
  check r "Error refreshing page"

/-- Interpreter.click (interpreter.rs 454-462). -/
def click : M Unit := do
  let e ← get_curr_elem
  let r ← callDriver (.clickElem e)
  check r "Error clicking element"

/-- Interpreter.type_into_elem (interpreter.rs 465-475). -/
def type_into_elem (cmd_param : CmdParam) : M Unit := do
  let txt ← resolve cmd_param
  let e ← get_curr_elem
  let r ← callDriver (.clear e)
  check r "Error clearing element"
  let e2 ← get_curr_elem
  let r2 ← callDriver (.sendKeys e2 txt)
  check r2 "Error typing into element"

/-- Interpreter.url_cmd (interpreter.rs 478-484). -/
def url_cmd (url : CmdParam) : M Unit := do
  let u ← resolve url
  let r ← callDriver (.goto u)
  check r "Error navigating to page."

/-- The nine locate strategies of one pass, in source order
(interpreter.rs 494-582); only the first carries the pass wait budget
(poll interval 1 second), the rest are nowait. -/
def passQueries (locator : Str) (wait : Nat) : List LocateQuery :=
  [ { by_ := By.XPath ("//input[@placeholder=\x27" ++ locator ++ "\x27]"), wait := some (wait, 1) },
    { by_ := By.XPath ("//label[text()=\x27" ++ locator ++ "\x27]/../input"), wait := none },
    { by_ := By.XPath ("//*[text()=\x27" ++ locator ++ "\x27]"), wait := none },
    { by_ := By.XPath ("//*[contains(text(), \x27" ++ locator ++ "\x27)]"), wait := none },
    { by_ := By.XPath ("//*[@title=\x27" ++ locator ++ "\x27]"), wait := none },
    { by_ := By.Id locator, wait := none },
    { by_ := By.Name locator, wait := none },
    { by_ := By.ClassName locator, wait := none },
    { by_ := By.XPath locator, wait := none } ]

/-- One strategy attempt: driver.query(by).wait-or-nowait.first(). -/
def tryQuery (q : LocateQuery) : M (Option Elem) := do
  let r ← callDriver (.query q)
  match r with
  | .elem e => pure (some e)
  | _ => pure none

/-- Try the strategies of one pass in order; on the first match, set the
found element as current (returning its result) and report true. -/
def tryStrategies (qs : List LocateQuery) (scroll_into_view : Bool) : M Bool :=
  match qs with
  | [] => pure false
  | q :: rest => do
    let r ← tryQuery q
    match r with
    | some e => do
      set_curr_elem e scroll_into_view
      pure true
    | none => tryStrategies rest scroll_into_view

/-- The for-loop of Interpreter.locate over the wait budgets; exhausting all
passes produces the could-not-locate error. -/
def locateLoop (locator : Str) (waits : List Nat) (scroll_into_view : Bool) : M Unit :=
  match waits with
  | [] => throwErr "Could not locate the element"
  | w :: rest => do
    let hit ← tryStrategies (passQueries locator w) scroll_into_view
    if hit then pure () else locateLoop locator rest scroll_into_view

/-- Dispatch on the result of one pass: a hit ends the locate loop, a miss
falls through to the continuation, a failure propagates. -/
def branchOnHit (els : M Unit) (r : Except RuntimeError Bool × St) :
    Except RuntimeError Unit × St :=
  match r with
  | (.ok true, s1) => (Except.ok (), s1)
  | (.ok false, s1) => els s1
  | (.error e1, s1) => (.error e1, s1)

/-- Interpreter.locate (interpreter.rs 488-585). -/
def locate (locator : CmdParam) (scroll_into_view : Bool) : M Unit := do
  let l ← resolve locator
  locateLoop l [0, 5, 10] scroll_into_view

/-- Interpreter.upload (interpreter.rs 329-338). -/
def upload (cp : CmdParam) : M Unit := do
  let path ← resolve cp
  let e ← get_curr_elem
  let r ← callDriver (.sendKeys e path)
  check r "Error uploading file"

/-- Interpreter.drag_to (interpreter.rs 340-344). -/
def drag_to (cp : CmdParam) : M Unit := do
  let current ← get_curr_elem
  locate cp false
  let tgt ← get_curr_elem
  let r ← callDriver (.dragElem current tgt)
  check r "Error dragging element."

/-- The option-to-parent-select refocusing block of Interpreter.select
(interpreter.rs 355-373). -/
def selectRefocusStep (tag : Str) : M Unit :=
  if tag = "option" then do
    let e2 ← get_curr_elem
    let pr ← callDriver (.queryParent e2)
    let parent_select ← asElem pr
      "Error getting parent select. Try locating the select element directly"
    set_curr_elem parent_select false
  else pure ()

/-- Interpreter.select (interpreter.rs 346-385). -/
def select (cp : CmdParam) : M Unit := do
  let option_text ← resolve cp
  let e ← get_curr_elem
  let tn ← callDriver (.tagName e)
  let tag ← asStr tn "Error getting element tag name"
  selectRefocusStep tag
  let e3 ← get_curr_elem
  let w ← callDriver (.wrapSelect e3)
  check w "Element is not a <select> element"
  let r ← callDriver (.selectByText e3 option_text)
  check r ("Could not select text " ++ option_text)

/-- Interpreter.chill (interpreter.rs 387-396). -/
def chill (cp : CmdParam) : M Unit := do
  let t ← resolve cp
  match t.toNat? with
  | some time_to_wait => recordEffect (.sleep time_to_wait)
  | none => throwErr "Could not parse time to wait as integer."

def enterKey : Str := ""

/-- The key lookup of Interpreter.press: only "Enter" is supported. -/
def keyFor (k : Str) : M Str :=
  match k with
  | "Enter" => Pure.pure enterKey
  | _ => throwErr "Unsupported Key"

/-- Interpreter.press (interpreter.rs 398-409). -/
def press (cp : CmdParam) : M Unit := do
  let k ← resolve cp
  let key_to_press ← keyFor k
  let e ← get_curr_elem
  let r ← callDriver (.sendKeys e key_to_press)
  check r "Error pressing key. Make sure you have an element in focus first."

/-- Interpreter.read_to (interpreter.rs 412-420). -/
def read_to (name : Str) : M Unit := do
  let e ← get_curr_elem
  let r ← callDriver (.readText e)
  let txt ← asStr r "Error getting text from element"
  M.modifyS fun s => { s with environment := s.environment.set_variable name txt }

/-- Interpreter.execute_cmd (interpreter.rs 303-327): a fixed one-second
pacing sleep, then dispatch on the command variant. -/
def execute_cmd (cmd : Cmd) : M Unit := do
  recordEffect (.sleep 1)
  match cmd with
  | .Locate locator => locate locator true
  | .LocateNoScroll locator => locate locator false
  | .Type_ txt => type_into_elem txt
  | .Click => click
  | .Refresh => refresh
  | .TryAgain => try_again
  | .Screenshot => screenshot
  | .ReadTo cp => read_to cp
  | .Url url => url_cmd url
  | .Press cp => press cp
  | .Chill cp => chill cp
  | .Select cp => select cp
  | .DragTo cp => drag_to cp
  | .Upload cp => upload cp

/-- Interpreter.execute_cmd_stmt (interpreter.rs 294-301): execute each cmd
of the and-chain, failing early if one command fails. -/
def execute_cmd_stmt : CmdStmt → M Unit
  | .mk lhs none => execute_cmd lhs
  | .mk lhs (some rhs) => do
    execute_cmd lhs
    execute_cmd_stmt rhs

/-- Interpreter.execute_if_stmt (interpreter.rs 277-289): if the condition
does not fail, execute the following cmd_stmt; otherwise succeed. -/
def execute_if_stmt (is : IfStmt) : M Unit := fun s =>
  match execute_cmd is.condition s with
  | (.ok _, s') => execute_cmd_stmt is.then_branch s'
  | (.error _, s') => (.ok (), s')

/-- Interpreter.execute_stmt (interpreter.rs 195-245): record the statement
in the replay buffer, then dispatch according to error mode. -/
def execute_stmt (stmt : Stmt) : M Unit := do
  M.modifyS fun s =>
    { s with stmts_since_last_error_handling := s.stmts_since_last_error_handling ++ [stmt] }
  let s ← M.get
  if !s.had_error then
    match stmt with
    | .Cmd cs => execute_cmd_stmt cs
    | .If is => execute_if_stmt is
    | .SetVariable sv => M.modifyS (set_variable sv)
    | .Comment _ => pure ()
    | .CatchErr _ =>
      M.modifyS fun st => { st with stmts_since_last_error_handling := [] }
    | .SetTryAgainFieldToFalse =>
      M.modifyS fun st => { st with tried_again := false }
  else
    match stmt with
    | .CatchErr cs => do
      execute_cmd_stmt cs
      M.modifyS fun st => { st with had_error := false }
    | _ =>
      M.modifyS fun st =>
        { st with stmts_since_last_error_handling := st.stmts_since_last_error_handling ++ [stmt] }

/-- Removal from the drain end of the pending-statement vector
(Vec::pop in interpreter.rs line 94). -/
def popEnd (l : List α) : Option (α × List α) :=
  match l.getLast? with
  | some a => some (a, l.dropLast)
  | none => none

/-- The order in which repeated same-end removal (popEnd, as used by the
interpret loop) drains a vector. -/
def drainOrder (l : List α) : List α :=
  match h : popEnd l with
  | none => []
  | some (a, rest) => a :: drainOrder rest
termination_by l.length
decreasing_by
  simp only [popEnd] at h
  rcases hg : l.getLast? with _ | b
  · rw [hg] at h; exact absurd h (by simp)
  · rw [hg] at h
    simp only [Option.some.injEq, Prod.mk.injEq] at h
    have hne : l ≠ [] := by intro he; subst he; simp at hg
    have : rest = l.dropLast := h.2.symm
    subst this
    have := List.length_dropLast l
    have hpos : 0 < l.length := List.length_pos.mpr hne
    omega

/-- Interpreter.new (interpreter.rs 59-74): the statement sequence is stored
reversed so that same-end removal reproduces script order. -/
def Interpreter.new (drv : Nat → Effect → DResp) (stmts : List Stmt) (is_demo : Bool) : St :=
  { drv := drv, effects := [], stmts := stmts.reverse, environment := Environment.new,
    curr_elem := none, had_error := false, stmts_since_last_error_handling := [],
    tried_again := false, log_buffer := "", screenshot_buffer := [], is_demo := is_demo }

/-- Result of a run of Interpreter.interpret: Ok(early_return), a WebDriver
error propagated from close_window, or exhaustion of the step budget. -/
inductive RunOutcome where
  | finished (early_return : Bool)
  | driverError
  | outOfFuel
deriving DecidableEq

/-- Result of one iteration of the interpret loop: continue with a new state
or stop with an outcome. -/
inductive StepRes where
  | next (s : St)
  | done (r : RunOutcome) (s : St)

def StepRes.state : StepRes → St
  | .next s => s
  | .done _ s => s

/-- One iteration of Interpreter.interpret's while-let loop
(interpreter.rs 94-114), including the end-of-queue epilogue (116-122):
pop a statement from the drain end, log its line if not in error mode,
execute it, and handle a failure according to its severity. -/
def interpretStep (close_driver : Bool) (s : St) : StepRes :=
  match popEnd s.stmts with
  | some (stmt, rest) =>
    let s1 : St := { s with stmts := rest }
    let s2 := if s1.had_error then s1 else log_cmd (Stmt.toString stmt) s1
    match execute_stmt stmt s2 with
    | (.ok _, s3) => .next s3
    | (.error (e, Severity.Exit), s3) =>
      let s4 := log_err e s3
      if close_driver then
        match driverCall .closeWindow s4 with
        | (DResp.ok, s5) => .done (.finished true) s5
        | (_, s5) => .done .driverError s5
      else .done (.finished true) s4
    | (.error (e, Severity.Recoverable), s3) =>
      let s4 := log_err e s3
      .next { s4 with had_error := true }
  | none =>
    if close_driver then
      match driverCall .closeWindow s with
      | (DResp.ok, s5) => .done (.finished s5.had_error) s5
      | (_, s5) => .done .driverError s5
    else .done (.finished s.had_error) s

/-- The interpret loop as iteration of interpretStep, with a step budget
(the Rust loop has no budget; outOfFuel marks budget exhaustion). -/
def interpretLoop (close_driver : Bool) : Nat → St → RunOutcome × St
  | 0, s => (.outOfFuel, s)
  | fuel + 1, s =>
    match interpretStep close_driver s with
    | .next s' => interpretLoop close_driver fuel s'
    | .done r s' => (r, s')

/-- Interpreter.interpret (interpreter.rs 87-123): reset the session fields
in case the interpreter is reused, then drain the queue. -/
def interpret (close_driver : Bool) (fuel : Nat) (s : St) : RunOutcome × St :=
  interpretLoop close_driver fuel
    { s with curr_elem := none, had_error := false,
             stmts_since_last_error_handling := [], tried_again := false }

/-- The unconditional replay-buffer push at the top of execute_stmt
(interpreter.rs line 198). -/
def pushReplay (stmt : Stmt) (s : St) : St :=
  { s with stmts_since_last_error_handling := s.stmts_since_last_error_handling ++ [stmt] }

/-- The full ordered list of queries of the three locate passes with wait
budgets 0, 5 and 10 seconds. -/
def allPassQueries (locator : Str) : List LocateQuery :=
  passQueries locator 0 ++ passQueries locator 5 ++ passQueries locator 10

/-- The single Info line the interpret loop logs for a dequeued statement. -/
def stmtLogLine (stmt : Stmt) : Str := "Info: " ++ stmt.toString ++ "\n"

/-- The operation m never changes the component g of the state. -/
def MFixes (g : St → β) (m : M α) : Prop := ∀ s, g (m s).2 = g s

/-- The operation m leaves the component g unchanged whenever it fails. -/
def MFixesOnErr (g : St → β) (m : M α) : Prop :=
  ∀ s e s', m s = (.error e, s') → g s' = g s

/-- Every failure of m carries the severity computed by Interpreter.error
from the tried_again flag at the moment the error is constructed (which is
the flag of the result state, since nothing runs after a failure). -/
def MSevOk (m : M α) : Prop :=
  ∀ s msg sev s', m s = (.error (msg, sev), s') →
    sev = if s'.tried_again then Severity.Exit else Severity.Recoverable

/-- The operation m never clears the tried_again flag. -/
def MTriedMono (m : M α) : Prop :=
  ∀ s, s.tried_again = true → ((m s).2).tried_again = true

/-- Strings that are concatenations of newline-terminated lines, each
starting with the Info or the Error marker. -/
inductive GoodLog : Str → Prop
  | nil : GoodLog ""
  | info (msg : Str) : GoodLog ("Info: " ++ msg ++ "\n")
  | error (msg : Str) : GoodLog ("Error: " ++ msg ++ "\n")
  | append (a b : Str) : GoodLog a → GoodLog b → GoodLog (a ++ b)

/-- The operation m only appends well-formed report lines to the log. -/
def MLogApp (m : M α) : Prop :=
  ∀ s, ∃ d, GoodLog d ∧ (m s).2.log_buffer = s.log_buffer ++ d

/-- The operation m only pushes statements onto the pending vector's end. -/
def MStmtsExt (m : M α) : Prop := ∀ s, ∃ ext, (m s).2.stmts = s.stmts ++ ext

/-- The bundle of structural facts shared by every interpreter operation:
the severity rule, monotonicity of tried_again, preservation of had_error,
append-only logging, and push-only access to the pending vector. -/
structure Cmdlike (m : M α) : Prop where
  sev : MSevOk m
  mono : MTriedMono m
  he : MFixes (fun s => s.had_error) m
  log : MLogApp m
  ext : MStmtsExt m

end SchnauzerUI

namespace SchnauzerUI

theorem M.bind_app (x : M α) (f : α → M β) (s : St) :
    (x >>= f) s = match x s with
      | (.ok a, s') => f a s'
      | (.error e, s') => (.error e, s') := rfl

theorem M.pure_app (a : α) (s : St) : (Pure.pure a : M α) s = (.ok a, s) := rfl

theorem GoodLog.single_info (msg : Str) (rest : Str) (h : GoodLog rest) :
    GoodLog (("Info: " ++ msg ++ "\n") ++ rest) :=
  GoodLog.append _ _ (GoodLog.info msg) h

theorem Cmdlike.pure (a : α) : Cmdlike (Pure.pure a : M α) := by
  refine ⟨?_, ?_, ?_, ?_, ?_⟩
  · intro s m sv s' h
    simp [M.pure_app] at h
  · intro s h
    exact h
  · intro s
    rfl
  · intro s
    exact ⟨"", GoodLog.nil, (String.append_empty _).symm⟩
  · intro s
    exact ⟨[], (List.append_nil _).symm⟩

theorem Cmdlike.throw (msg : Str) : Cmdlike (throwErr msg : M α) := by
  refine ⟨?_, ?_, ?_, ?_, ?_⟩
  · intro s m sv s' h
    simp only [throwErr, error] at h
    by_cases hta : s.tried_again
    · simp [hta] at h
      simp [h.1.2, ← h.2, hta]
    · simp [hta] at h
      simp [h.1.2, ← h.2, hta]
  · intro s h
    exact h
  · intro s
    rfl
  · intro s
    exact ⟨"", GoodLog.nil, (String.append_empty _).symm⟩
  · intro s
    exact ⟨[], (List.append_nil _).symm⟩

theorem Cmdlike.call (eff : Effect) : Cmdlike (callDriver eff) := by
  refine ⟨?_, ?_, ?_, ?_, ?_⟩
  · intro s m sv s' h
    simp [callDriver] at h
  · intro s h
    exact h
  · intro s
    rfl
  · intro s
    exact ⟨"", GoodLog.nil, (String.append_empty _).symm⟩
  · intro s
    exact ⟨[], (List.append_nil _).symm⟩

theorem Cmdlike.getS : Cmdlike M.get := by
  refine ⟨?_, ?_, ?_, ?_, ?_⟩
  · intro s m sv s' h
    simp [M.get] at h
  · intro s h
    exact h
  · intro s
    rfl
  · intro s
    exact ⟨"", GoodLog.nil, (String.append_empty _).symm⟩
  · intro s
    exact ⟨[], (List.append_nil _).symm⟩

theorem Cmdlike.modify (f : St → St)
    (hhe : ∀ s, (f s).had_error = s.had_error)
    (hta : ∀ s, s.tried_again = true → (f s).tried_again = true)
    (hlog : ∀ s, ∃ d, GoodLog d ∧ (f s).log_buffer = s.log_buffer ++ d)
    (hext : ∀ s, ∃ e, (f s).stmts = s.stmts ++ e) :
    Cmdlike (M.modifyS f) := by
  refine ⟨?_, ?_, ?_, ?_, ?_⟩
  · intro s m sv s' h
    simp [M.modifyS] at h
  · intro s h
    exact hta s h
  · intro s
    exact hhe s
  · intro s
    exact hlog s
  · intro s
    exact hext s

/-- A state update that changes none of the tracked components. -/
theorem Cmdlike.modify_of_plain (f : St → St)
    (hhe : ∀ s, (f s).had_error = s.had_error)
    (hta : ∀ s, (f s).tried_again = s.tried_again)
    (hlog : ∀ s, (f s).log_buffer = s.log_buffer)
    (hext : ∀ s, (f s).stmts = s.stmts) :
    Cmdlike (M.modifyS f) := by
  refine Cmdlike.modify f hhe (fun s h => (hta s).trans h) ?_ ?_
  · intro s
    exact ⟨"", GoodLog.nil, by rw [hlog, String.append_empty]⟩
  · intro s
    exact ⟨[], by simp [hext]⟩

theorem Cmdlike.bind {x : M α} {f : α → M β}
    (hx : Cmdlike x) (hf : ∀ a, Cmdlike (f a)) : Cmdlike (x >>= f) := by
  refine ⟨?_, ?_, ?_, ?_, ?_⟩
  · intro s m sv s' h
    rw [M.bind_app] at h
    rcases hxs : x s with ⟨r, s1⟩
    rw [hxs] at h
    cases r with
    | ok a => exact (hf a).sev s1 m sv s' h
    | error e =>
      rcases e with ⟨em, esv⟩
      simp only [Prod.mk.injEq, Except.error.injEq] at h
      rcases h with ⟨⟨hm, hsv⟩, hs1⟩
      subst hm
      subst hsv
      subst hs1
      exact hx.sev s _ _ _ hxs
  · intro s hs
    rw [M.bind_app]
    rcases hxs : x s with ⟨r, s1⟩
    have h1 : s1.tried_again = true := by
      have := hx.mono s hs
      rw [hxs] at this
      exact this
    cases r with
    | ok a =>
      simpa using (hf a).mono s1 h1
    | error e =>
      simpa using h1
  · intro s
    rw [M.bind_app]
    rcases hxs : x s with ⟨r, s1⟩
    have h1 : s1.had_error = s.had_error := by
      have := hx.he s
      rw [hxs] at this
      exact this
    cases r with
    | ok a =>
      simpa [h1] using (hf a).he s1
    | error e =>
      simpa using h1
  · intro s
    rw [M.bind_app]
    rcases hxs : x s with ⟨r, s1⟩
    have h1 : ∃ d, GoodLog d ∧ s1.log_buffer = s.log_buffer ++ d := by
      have := hx.log s
      rw [hxs] at this
      exact this
    rcases h1 with ⟨d1, hg1, he1⟩
    cases r with
    | ok a =>
      rcases (hf a).log s1 with ⟨d2, hg2, he2⟩
      refine ⟨d1 ++ d2, GoodLog.append _ _ hg1 hg2, ?_⟩
      simp only []
      rw [he2, he1, String.append_assoc]
    | error e =>
      exact ⟨d1, hg1, by simpa using he1⟩
  · intro s
    rw [M.bind_app]
    rcases hxs : x s with ⟨r, s1⟩
    have h1 : ∃ ext, s1.stmts = s.stmts ++ ext := by
      have := hx.ext s
      rw [hxs] at this
      exact this
    rcases h1 with ⟨e1, he1⟩
    cases r with
    | ok a =>
      rcases (hf a).ext s1 with ⟨e2, he2⟩
      refine ⟨e1 ++ e2, ?_⟩
      simp only []
      rw [he2, he1, List.append_assoc]
    | error e =>
      exact ⟨e1, by simpa using he1⟩

theorem Cmdlike.ite {c : Prop} [Decidable c] {x y : M α}
    (hx : Cmdlike x) (hy : Cmdlike y) : Cmdlike (if c then x else y) := by
  split
  · exact hx
  · exact hy

theorem recordEffect_cl (eff : Effect) : Cmdlike (recordEffect eff) :=
  Cmdlike.modify_of_plain _ (fun _ => rfl) (fun _ => rfl) (fun _ => rfl) (fun _ => rfl)

theorem check_cl (r : DResp) (msg : Str) : Cmdlike (check r msg) :=
  Cmdlike.ite (Cmdlike.pure _) (Cmdlike.throw _)

theorem asStr_cl (r : DResp) (msg : Str) : Cmdlike (asStr r msg) := by
  cases r
  · exact Cmdlike.throw _
  · exact Cmdlike.throw _
  · exact Cmdlike.throw _
  · exact Cmdlike.pure _
  · exact Cmdlike.throw _

theorem asElem_cl (r : DResp) (msg : Str) : Cmdlike (asElem r msg) := by
  cases r
  · exact Cmdlike.throw _
  · exact Cmdlike.throw _
  · exact Cmdlike.pure _
  · exact Cmdlike.throw _
  · exact Cmdlike.throw _

theorem asBytes_cl (r : DResp) (msg : Str) : Cmdlike (asBytes r msg) := by
  cases r
  · exact Cmdlike.throw _
  · exact Cmdlike.throw _
  · exact Cmdlike.throw _
  · exact Cmdlike.throw _
  · exact Cmdlike.pure _

theorem keyFor_cl (k : Str) : Cmdlike (keyFor k) := by
  unfold keyFor
  split
  · exact Cmdlike.pure _
  · exact Cmdlike.throw _

theorem get_curr_elem_cl : Cmdlike get_curr_elem := by
  unfold get_curr_elem
  refine Cmdlike.bind Cmdlike.getS fun s => ?_
  cases s.curr_elem
  · exact Cmdlike.throw _
  · exact Cmdlike.pure _

theorem get_variable_cl (name : Str) : Cmdlike (get_variable name) := by
  unfold get_variable
  refine Cmdlike.bind Cmdlike.getS fun s => ?_
  cases s.environment.get_variable name
  · exact Cmdlike.throw _
  · exact Cmdlike.pure _

theorem resolve_cl (cp : CmdParam) : Cmdlike (resolve cp) := by
  unfold resolve
  cases cp
  · exact Cmdlike.pure _
  · exact get_variable_cl _

theorem scrollStep_cl (e : Elem) (sc : Bool) : Cmdlike (scrollStep e sc) := by
  unfold scrollStep
  refine Cmdlike.ite ?_ (Cmdlike.pure _)
  exact Cmdlike.bind (Cmdlike.call _) fun r => check_cl _ _

theorem demoStep_cl (e : Elem) : Cmdlike (demoStep e) := by
  unfold demoStep
  refine Cmdlike.bind Cmdlike.getS fun s => ?_
  refine Cmdlike.ite ?_ (Cmdlike.pure _)
  refine Cmdlike.bind (Cmdlike.call _) fun j => ?_
  refine Cmdlike.bind (check_cl _ _) fun _ => ?_
  refine Cmdlike.bind (Cmdlike.call _) fun h => ?_
  refine Cmdlike.bind (check_cl _ _) fun _ => ?_
  refine Cmdlike.bind Cmdlike.getS fun s2 => ?_
  cases s2.curr_elem with
  | none => exact Cmdlike.pure _
  | some curr =>
    refine Cmdlike.bind (Cmdlike.call _) fun j2 => ?_
    refine Cmdlike.bind (check_cl _ _) fun _ => ?_
    exact Cmdlike.bind (Cmdlike.call _) fun _ => Cmdlike.pure _

theorem set_curr_elem_cl (e : Elem) (sc : Bool) : Cmdlike (set_curr_elem e sc) := by
  unfold set_curr_elem
  refine Cmdlike.bind (scrollStep_cl e sc) fun _ => ?_
  refine Cmdlike.bind (demoStep_cl e) fun _ => ?_
  exact Cmdlike.modify_of_plain _ (fun _ => rfl) (fun _ => rfl) (fun _ => rfl) (fun _ => rfl)

theorem try_again_cl : Cmdlike try_again := by
  unfold try_again
  refine Cmdlike.modify _ (fun _ => rfl) (fun _ _ => rfl) ?_ ?_
  · intro s
    exact ⟨"", GoodLog.nil, (String.append_empty _).symm⟩
  · intro s
    exact ⟨[Stmt.SetTryAgainFieldToFalse] ++ s.stmts_since_last_error_handling, by
      simp⟩

theorem screenshot_cl : Cmdlike screenshot := by
  unfold screenshot
  refine Cmdlike.bind (Cmdlike.modify _ (fun _ => rfl) (fun _ h => h) ?_ ?_) fun _ => ?_
  · intro s
    exact ⟨"Info: " ++ "Taking a screenshot" ++ "\n", GoodLog.info _, rfl⟩
  · intro s
    exact ⟨[], (List.append_nil _).symm⟩
  refine Cmdlike.bind (Cmdlike.call _) fun r => ?_
  refine Cmdlike.bind (asBytes_cl _ _) fun ss => ?_
  exact Cmdlike.modify_of_plain _ (fun _ => rfl) (fun _ => rfl) (fun _ => rfl) (fun _ => rfl)

theorem refresh_cl : Cmdlike refresh := by
  unfold refresh
  exact Cmdlike.bind (Cmdlike.call _) fun r => check_cl _ _

theorem click_cl : Cmdlike click := by
  unfold click
  exact Cmdlike.bind get_curr_elem_cl fun e =>
    Cmdlike.bind (Cmdlike.call _) fun r => check_cl _ _

theorem type_into_elem_cl (cp : CmdParam) : Cmdlike (type_into_elem cp) := by
  unfold type_into_elem
  exact Cmdlike.bind (resolve_cl _) fun txt =>
    Cmdlike.bind get_curr_elem_cl fun e =>
      Cmdlike.bind (Cmdlike.call _) fun r =>
        Cmdlike.bind (check_cl _ _) fun _ =>
          Cmdlike.bind get_curr_elem_cl fun e2 =>
            Cmdlike.bind (Cmdlike.call _) fun r2 => check_cl _ _

theorem url_cmd_cl (u : CmdParam) : Cmdlike (url_cmd u) := by
  unfold url_cmd
  exact Cmdlike.bind (resolve_cl _) fun s =>
    Cmdlike.bind (Cmdlike.call _) fun r => check_cl _ _

theorem tryQuery_cl (q : LocateQuery) : Cmdlike (tryQuery q) := by
  unfold tryQuery
  refine Cmdlike.bind (Cmdlike.call _) fun r => ?_
  cases r
  · exact Cmdlike.pure _
  · exact Cmdlike.pure _
  · exact Cmdlike.pure _
  · exact Cmdlike.pure _
  · exact Cmdlike.pure _

theorem tryStrategies_cl (qs : List LocateQuery) (sc : Bool) :
    Cmdlike (tryStrategies qs sc) := by
  induction qs with
  | nil => exact Cmdlike.pure _
  | cons q rest ih =>
    unfold tryStrategies
    refine Cmdlike.bind (tryQuery_cl q) fun r => ?_
    cases r with
    | some e => exact Cmdlike.bind (set_curr_elem_cl e sc) fun _ => Cmdlike.pure _
    | none => exact ih

theorem locateLoop_cl (l : Str) (waits : List Nat) (sc : Bool) :
    Cmdlike (locateLoop l waits sc) := by
  induction waits with
  | nil => exact Cmdlike.throw _
  | cons w rest ih =>
    unfold locateLoop
    exact Cmdlike.bind (tryStrategies_cl _ _) fun hit => Cmdlike.ite (Cmdlike.pure _) ih

theorem locate_cl (cp : CmdParam) (sc : Bool) : Cmdlike (locate cp sc) := by
  unfold locate
  exact Cmdlike.bind (resolve_cl _) fun l => locateLoop_cl l _ sc

theorem upload_cl (cp : CmdParam) : Cmdlike (upload cp) := by
  unfold upload
  exact Cmdlike.bind (resolve_cl _) fun p =>
    Cmdlike.bind get_curr_elem_cl fun e =>
      Cmdlike.bind (Cmdlike.call _) fun r => check_cl _ _

theorem drag_to_cl (cp : CmdParam) : Cmdlike (drag_to cp) := by
  unfold drag_to
  exact Cmdlike.bind get_curr_elem_cl fun current =>
    Cmdlike.bind (locate_cl cp false) fun _ =>
      Cmdlike.bind get_curr_elem_cl fun tgt =>
        Cmdlike.bind (Cmdlike.call _) fun r => check_cl _ _

theorem selectRefocusStep_cl (tag : Str) : Cmdlike (selectRefocusStep tag) := by
  unfold selectRefocusStep
  refine Cmdlike.ite ?_ (Cmdlike.pure _)
  refine Cmdlike.bind get_curr_elem_cl fun e2 => ?_
  refine Cmdlike.bind (Cmdlike.call _) fun pr => ?_
  exact Cmdlike.bind (asElem_cl _ _) fun parent_select => set_curr_elem_cl _ _

theorem select_cl (cp : CmdParam) : Cmdlike (select cp) := by
  unfold select
  refine Cmdlike.bind (resolve_cl _) fun t => ?_
  refine Cmdlike.bind get_curr_elem_cl fun e => ?_
  refine Cmdlike.bind (Cmdlike.call _) fun tn => ?_
  refine Cmdlike.bind (asStr_cl _ _) fun tag => ?_
  refine Cmdlike.bind (selectRefocusStep_cl _) fun _ => ?_
  refine Cmdlike.bind get_curr_elem_cl fun e3 => ?_
  refine Cmdlike.bind (Cmdlike.call _) fun w => ?_
  refine Cmdlike.bind (check_cl _ _) fun _ => ?_
  exact Cmdlike.bind (Cmdlike.call _) fun r => check_cl _ _

theorem chill_cl (cp : CmdParam) : Cmdlike (chill cp) := by
  unfold chill
  refine Cmdlike.bind (resolve_cl _) fun t => ?_
  cases t.toNat?
  · exact Cmdlike.throw _
  · exact recordEffect_cl _

theorem press_cl (cp : CmdParam) : Cmdlike (press cp) := by
  unfold press
  refine Cmdlike.bind (resolve_cl _) fun k => ?_
  refine Cmdlike.bind (keyFor_cl _) fun key => ?_
  exact Cmdlike.bind get_curr_elem_cl fun e =>
    Cmdlike.bind (Cmdlike.call _) fun r => check_cl _ _

theorem read_to_cl (name : Str) : Cmdlike (read_to name) := by
  unfold read_to
  refine Cmdlike.bind get_curr_elem_cl fun e => ?_
  refine Cmdlike.bind (Cmdlike.call _) fun r => ?_
  refine Cmdlike.bind (asStr_cl _ _) fun txt => ?_
  exact Cmdlike.modify_of_plain _ (fun _ => rfl) (fun _ => rfl) (fun _ => rfl) (fun _ => rfl)

theorem execute_cmd_cl (cmd : Cmd) : Cmdlike (execute_cmd cmd) := by
  unfold execute_cmd
  refine Cmdlike.bind (recordEffect_cl _) fun _ => ?_
  cases cmd
  · exact locate_cl _ _
  · exact locate_cl _ _
  · exact type_into_elem_cl _
  · exact click_cl
  · exact refresh_cl
  · exact try_again_cl
  · exact screenshot_cl
  · exact read_to_cl _
  · exact url_cmd_cl _
  · exact press_cl _
  · exact chill_cl _
  · exact select_cl _
  · exact drag_to_cl _
  · exact upload_cl _

theorem execute_cmd_stmt_cl : ∀ cs : CmdStmt, Cmdlike (execute_cmd_stmt cs)
  | .mk lhs none => by
    unfold execute_cmd_stmt
    exact execute_cmd_cl lhs
  | .mk lhs (some rhs) => by
    unfold execute_cmd_stmt
    exact Cmdlike.bind (execute_cmd_cl lhs) fun _ => execute_cmd_stmt_cl rhs

theorem execute_if_stmt_cl (is : IfStmt) : Cmdlike (execute_if_stmt is) := by
  refine ⟨?_, ?_, ?_, ?_, ?_⟩
  · intro s m sv s' h
    unfold execute_if_stmt at h
    rcases hc : execute_cmd is.condition s with ⟨r, s1⟩
    rw [hc] at h
    cases r with
    | ok a => exact (execute_cmd_stmt_cl is.then_branch).sev s1 m sv s' h
    | error e => simp at h
  · intro s hs
    unfold execute_if_stmt
    rcases hc : execute_cmd is.condition s with ⟨r, s1⟩
    have h1 : s1.tried_again = true := by
      have := (execute_cmd_cl is.condition).mono s hs
      rw [hc] at this
      exact this
    cases r with
    | ok a => simpa using (execute_cmd_stmt_cl is.then_branch).mono s1 h1
    | error e => simpa using h1
  · intro s
    unfold execute_if_stmt
    rcases hc : execute_cmd is.condition s with ⟨r, s1⟩
    have h1 : s1.had_error = s.had_error := by
      have := (execute_cmd_cl is.condition).he s
      rw [hc] at this
      exact this
    cases r with
    | ok a => simpa [h1] using (execute_cmd_stmt_cl is.then_branch).he s1
    | error e => simpa using h1
  · intro s
    unfold execute_if_stmt
    rcases hc : execute_cmd is.condition s with ⟨r, s1⟩
    have h1 : ∃ d, GoodLog d ∧ s1.log_buffer = s.log_buffer ++ d := by
      have := (execute_cmd_cl is.condition).log s
      rw [hc] at this
      exact this
    rcases h1 with ⟨d1, hg1, he1⟩
    cases r with
    | ok a =>
      rcases (execute_cmd_stmt_cl is.then_branch).log s1 with ⟨d2, hg2, he2⟩
      refine ⟨d1 ++ d2, GoodLog.append _ _ hg1 hg2, ?_⟩
      simp only []
      rw [he2, he1, String.append_assoc]
    | error e => exact ⟨d1, hg1, by simpa using he1⟩
  · intro s
    unfold execute_if_stmt
    rcases hc : execute_cmd is.condition s with ⟨r, s1⟩
    have h1 : ∃ ext, s1.stmts = s.stmts ++ ext := by
      have := (execute_cmd_cl is.condition).ext s
      rw [hc] at this
      exact this
    rcases h1 with ⟨e1, he1⟩
    cases r with
    | ok a =>
      rcases (execute_cmd_stmt_cl is.then_branch).ext s1 with ⟨e2, he2⟩
      refine ⟨e1 ++ e2, ?_⟩
      simp only []
      rw [he2, he1, List.append_assoc]
    | error e => exact ⟨e1, by simpa using he1⟩

theorem execute_stmt_app (stmt : Stmt) (s : St) :
    execute_stmt stmt s =
      (if !(pushReplay stmt s).had_error then
        match stmt with
        | .Cmd cs => execute_cmd_stmt cs
        | .If is => execute_if_stmt is
        | .SetVariable sv => M.modifyS (set_variable sv)
        | .Comment _ => Pure.pure ()
        | .CatchErr _ => M.modifyS fun st => { st with stmts_since_last_error_handling := [] }
        | .SetTryAgainFieldToFalse => M.modifyS fun st => { st with tried_again := false }
      else
        match stmt with
        | .CatchErr cs =>
          execute_cmd_stmt cs >>= fun _ =>
            M.modifyS fun st => { st with had_error := false }
        | _ => M.modifyS fun st =>
            { st with stmts_since_last_error_handling :=
               st.stmts_since_last_error_handling ++ [stmt] })
      (pushReplay stmt s) := rfl

/-- Any statement dequeued in error mode that is not a catch-error boundary
executes nothing: the only state change is that the statement is pushed onto
the replay buffer twice (lines 198 and 240 of interpreter.rs). -/
theorem execute_stmt_skip (stmt : Stmt) (s : St) (h : s.had_error = true)
    (hnc : ∀ cs, stmt ≠ Stmt.CatchErr cs) :
    execute_stmt stmt s =
      (Except.ok (), { s with stmts_since_last_error_handling :=
        (s.stmts_since_last_error_handling ++ [stmt]) ++ [stmt] }) := by
  rw [execute_stmt_app]
  have hh : (pushReplay stmt s).had_error = true := h
  rw [hh]
  cases stmt with
  | CatchErr cs => exact absurd rfl (hnc cs)
  | Cmd cs => rfl
  | If is => rfl
  | SetVariable sv => rfl
  | Comment c => rfl
  | SetTryAgainFieldToFalse => rfl

/-- A catch-error boundary dequeued in error mode executes its command chain
exactly once (from the state with the boundary pushed onto the replay
buffer); success clears error mode, failure propagates unchanged. -/
theorem execute_stmt_catch (cs : CmdStmt) (s : St) (h : s.had_error = true) :
    execute_stmt (Stmt.CatchErr cs) s =
      (match execute_cmd_stmt cs (pushReplay (Stmt.CatchErr cs) s) with
       | (.ok _, s') => (Except.ok (), { s' with had_error := false })
       | (.error e, s') => (Except.error e, s')) := by
  rw [execute_stmt_app]
  have hh : (pushReplay (Stmt.CatchErr cs) s).had_error = true := h
  rw [hh]
  simp only [Bool.not_true, Bool.false_eq_true, if_false]
  rw [M.bind_app]
  rcases hr : execute_cmd_stmt cs (pushReplay (Stmt.CatchErr cs) s) with ⟨r, s1⟩
  cases r with
  | ok a => rfl
  | error e => rfl

theorem execute_stmt_normal_cmd (cs : CmdStmt) (s : St) (h : s.had_error = false) :
    execute_stmt (Stmt.Cmd cs) s = execute_cmd_stmt cs (pushReplay (Stmt.Cmd cs) s) := by
  rw [execute_stmt_app]
  have hh : (pushReplay (Stmt.Cmd cs) s).had_error = false := h
  rw [hh]
  rfl

theorem execute_stmt_normal_if (is : IfStmt) (s : St) (h : s.had_error = false) :
    execute_stmt (Stmt.If is) s = execute_if_stmt is (pushReplay (Stmt.If is) s) := by
  rw [execute_stmt_app]
  have hh : (pushReplay (Stmt.If is) s).had_error = false := h
  rw [hh]
  rfl

theorem execute_stmt_normal_setvar (sv : SetVariableStmt) (s : St) (h : s.had_error = false) :
    execute_stmt (Stmt.SetVariable sv) s =
      (Except.ok (), set_variable sv (pushReplay (Stmt.SetVariable sv) s)) := by
  rw [execute_stmt_app]
  have hh : (pushReplay (Stmt.SetVariable sv) s).had_error = false := h
  rw [hh]
  rfl

theorem execute_stmt_normal_comment (c : Str) (s : St) (h : s.had_error = false) :
    execute_stmt (Stmt.Comment c) s = (Except.ok (), pushReplay (Stmt.Comment c) s) := by
  rw [execute_stmt_app]
  have hh : (pushReplay (Stmt.Comment c) s).had_error = false := h
  rw [hh]
  rfl

/-- Reaching a catch-error boundary in normal mode just clears the replay
buffer (interpreter.rs 213-218). -/
theorem execute_stmt_normal_catch (cs : CmdStmt) (s : St) (h : s.had_error = false) :
    execute_stmt (Stmt.CatchErr cs) s =
      (Except.ok (), { s with stmts_since_last_error_handling := [] }) := by
  rw [execute_stmt_app]
  have hh : (pushReplay (Stmt.CatchErr cs) s).had_error = false := h
  rw [hh]
  rfl

/-- Dispatching the internal marker statement in normal mode clears the
tried_again flag (interpreter.rs 219-225). -/
theorem execute_stmt_marker (s : St) (h : s.had_error = false) :
    execute_stmt Stmt.SetTryAgainFieldToFalse s =
      (Except.ok (), { s with
        stmts_since_last_error_handling :=
          s.stmts_since_last_error_handling ++ [Stmt.SetTryAgainFieldToFalse],
        tried_again := false }) := by
  rw [execute_stmt_app]
  have hh : (pushReplay Stmt.SetTryAgainFieldToFalse s).had_error = false := h
  rw [hh]
  rfl

theorem execute_stmt_sev (stmt : Stmt) : MSevOk (execute_stmt stmt) := by
  intro s msg sev s' h
  cases hhe : s.had_error with
  | false =>
    cases stmt with
    | Cmd cs =>
      rw [execute_stmt_normal_cmd cs s hhe] at h
      exact (execute_cmd_stmt_cl cs).sev _ _ _ _ h
    | If is =>
      rw [execute_stmt_normal_if is s hhe] at h
      exact (execute_if_stmt_cl is).sev _ _ _ _ h
    | SetVariable sv =>
      rw [execute_stmt_normal_setvar sv s hhe] at h
      simp at h
    | Comment c =>
      rw [execute_stmt_normal_comment c s hhe] at h
      simp at h
    | CatchErr cs =>
      rw [execute_stmt_normal_catch cs s hhe] at h
      simp at h
    | SetTryAgainFieldToFalse =>
      rw [execute_stmt_marker s hhe] at h
      simp at h
  | true =>
    cases stmt with
    | CatchErr cs =>
      rw [execute_stmt_catch cs s hhe] at h
      rcases hr : execute_cmd_stmt cs (pushReplay (Stmt.CatchErr cs) s) with ⟨r, s1⟩
      rw [hr] at h
      cases r with
      | ok a => simp at h
      | error e =>
        rcases e with ⟨em, esv⟩
        simp only [Prod.mk.injEq, Except.error.injEq] at h
        rcases h with ⟨⟨hm, hsv⟩, hs1⟩
        subst hm
        subst hsv
        subst hs1
        exact (execute_cmd_stmt_cl cs).sev _ _ _ _ hr
    | Cmd cs =>
      rw [execute_stmt_skip _ s hhe (fun _ hc => Stmt.noConfusion hc)] at h
      simp at h
    | If is =>
      rw [execute_stmt_skip _ s hhe (fun _ hc => Stmt.noConfusion hc)] at h
      simp at h
    | SetVariable sv =>
      rw [execute_stmt_skip _ s hhe (fun _ hc => Stmt.noConfusion hc)] at h
      simp at h
    | Comment c =>
      rw [execute_stmt_skip _ s hhe (fun _ hc => Stmt.noConfusion hc)] at h
      simp at h
    | SetTryAgainFieldToFalse =>
      rw [execute_stmt_skip _ s hhe (fun _ hc => Stmt.noConfusion hc)] at h
      simp at h

theorem execute_stmt_mono (stmt : Stmt) (hne : stmt ≠ Stmt.SetTryAgainFieldToFalse) :
    MTriedMono (execute_stmt stmt) := by
  intro s hta
  cases hhe : s.had_error with
  | false =>
    cases stmt with
    | Cmd cs =>
      rw [execute_stmt_normal_cmd cs s hhe]
      exact (execute_cmd_stmt_cl cs).mono _ hta
    | If is =>
      rw [execute_stmt_normal_if is s hhe]
      exact (execute_if_stmt_cl is).mono _ hta
    | SetVariable sv =>
      rw [execute_stmt_normal_setvar sv s hhe]
      exact hta
    | Comment c =>
      rw [execute_stmt_normal_comment c s hhe]
      exact hta
    | CatchErr cs =>
      rw [execute_stmt_normal_catch cs s hhe]
      exact hta
    | SetTryAgainFieldToFalse => exact absurd rfl hne
  | true =>
    cases stmt with
    | CatchErr cs =>
      rw [execute_stmt_catch cs s hhe]
      rcases hr : execute_cmd_stmt cs (pushReplay (Stmt.CatchErr cs) s) with ⟨r, s1⟩
      have h1 : s1.tried_again = true := by
        have := (execute_cmd_stmt_cl cs).mono (pushReplay (Stmt.CatchErr cs) s) hta
        rw [hr] at this
        exact this
      cases r with
      | ok a => simpa using h1
      | error e => simpa using h1
    | Cmd cs =>
      rw [execute_stmt_skip _ s hhe (fun _ hc => Stmt.noConfusion hc)]
      exact hta
    | If is =>
      rw [execute_stmt_skip _ s hhe (fun _ hc => Stmt.noConfusion hc)]
      exact hta
    | SetVariable sv =>
      rw [execute_stmt_skip _ s hhe (fun _ hc => Stmt.noConfusion hc)]
      exact hta
    | Comment c =>
      rw [execute_stmt_skip _ s hhe (fun _ hc => Stmt.noConfusion hc)]
      exact hta
    | SetTryAgainFieldToFalse => exact absurd rfl hne

theorem execute_stmt_he_down (stmt : Stmt) (s : St)
    (h : ((execute_stmt stmt s).2).had_error = true) : s.had_error = true := by
  cases hhe : s.had_error with
  | true => rfl
  | false =>
    exfalso
    cases stmt with
    | Cmd cs =>
      rw [execute_stmt_normal_cmd cs s hhe] at h
      have hthis : (execute_cmd_stmt cs (pushReplay (Stmt.Cmd cs) s)).2.had_error
          = (pushReplay (Stmt.Cmd cs) s).had_error :=
        (execute_cmd_stmt_cl cs).he _
      rw [h] at hthis
      have h2 : (pushReplay (Stmt.Cmd cs) s).had_error = false := hhe
      rw [h2] at hthis
      exact Bool.noConfusion hthis
    | If is =>
      rw [execute_stmt_normal_if is s hhe] at h
      have hthis : (execute_if_stmt is (pushReplay (Stmt.If is) s)).2.had_error
          = (pushReplay (Stmt.If is) s).had_error :=
        (execute_if_stmt_cl is).he _
      rw [h] at hthis
      have h2 : (pushReplay (Stmt.If is) s).had_error = false := hhe
      rw [h2] at hthis
      exact Bool.noConfusion hthis
    | SetVariable sv =>
      rw [execute_stmt_normal_setvar sv s hhe] at h
      simp [set_variable, pushReplay, hhe] at h
    | Comment c =>
      rw [execute_stmt_normal_comment c s hhe] at h
      simp [pushReplay, hhe] at h
    | CatchErr cs =>
      rw [execute_stmt_normal_catch cs s hhe] at h
      simp [hhe] at h
    | SetTryAgainFieldToFalse =>
      rw [execute_stmt_marker s hhe] at h
      simp [hhe] at h

theorem execute_stmt_log (stmt : Stmt) : MLogApp (execute_stmt stmt) := by
  intro s
  cases hhe : s.had_error with
  | false =>
    cases stmt with
    | Cmd cs =>
      rw [execute_stmt_normal_cmd cs s hhe]
      exact (execute_cmd_stmt_cl cs).log _
    | If is =>
      rw [execute_stmt_normal_if is s hhe]
      exact (execute_if_stmt_cl is).log _
    | SetVariable sv =>
      rw [execute_stmt_normal_setvar sv s hhe]
      exact ⟨"", GoodLog.nil, (String.append_empty _).symm⟩
    | Comment c =>
      rw [execute_stmt_normal_comment c s hhe]
      exact ⟨"", GoodLog.nil, (String.append_empty _).symm⟩
    | CatchErr cs =>
      rw [execute_stmt_normal_catch cs s hhe]
      exact ⟨"", GoodLog.nil, (String.append_empty _).symm⟩
    | SetTryAgainFieldToFalse =>
      rw [execute_stmt_marker s hhe]
      exact ⟨"", GoodLog.nil, (String.append_empty _).symm⟩
  | true =>
    cases stmt with
    | CatchErr cs =>
      rw [execute_stmt_catch cs s hhe]
      rcases hr : execute_cmd_stmt cs (pushReplay (Stmt.CatchErr cs) s) with ⟨r, s1⟩
      have h1 : ∃ d, GoodLog d ∧ s1.log_buffer = s.log_buffer ++ d := by
        have := (execute_cmd_stmt_cl cs).log (pushReplay (Stmt.CatchErr cs) s)
        rw [hr] at this
        exact this
      rcases h1 with ⟨d, hg, hd⟩
      cases r with
      | ok a => exact ⟨d, hg, by simpa using hd⟩
      | error e => exact ⟨d, hg, by simpa using hd⟩
    | Cmd cs =>
      rw [execute_stmt_skip _ s hhe (fun _ hc => Stmt.noConfusion hc)]
      exact ⟨"", GoodLog.nil, (String.append_empty _).symm⟩
    | If is =>
      rw [execute_stmt_skip _ s hhe (fun _ hc => Stmt.noConfusion hc)]
      exact ⟨"", GoodLog.nil, (String.append_empty _).symm⟩
    | SetVariable sv =>
      rw [execute_stmt_skip _ s hhe (fun _ hc => Stmt.noConfusion hc)]
      exact ⟨"", GoodLog.nil, (String.append_empty _).symm⟩
    | Comment c =>
      rw [execute_stmt_skip _ s hhe (fun _ hc => Stmt.noConfusion hc)]
      exact ⟨"", GoodLog.nil, (String.append_empty _).symm⟩
    | SetTryAgainFieldToFalse =>
      rw [execute_stmt_skip _ s hhe (fun _ hc => Stmt.noConfusion hc)]
      exact ⟨"", GoodLog.nil, (String.append_empty _).symm⟩

theorem execute_stmt_ext (stmt : Stmt) : MStmtsExt (execute_stmt stmt) := by
  intro s
  cases hhe : s.had_error with
  | false =>
    cases stmt with
    | Cmd cs =>
      rw [execute_stmt_normal_cmd cs s hhe]
      exact (execute_cmd_stmt_cl cs).ext _
    | If is =>
      rw [execute_stmt_normal_if is s hhe]
      exact (execute_if_stmt_cl is).ext _
    | SetVariable sv =>
      rw [execute_stmt_normal_setvar sv s hhe]
      exact ⟨[], (List.append_nil _).symm⟩
    | Comment c =>
      rw [execute_stmt_normal_comment c s hhe]
      exact ⟨[], (List.append_nil _).symm⟩
    | CatchErr cs =>
      rw [execute_stmt_normal_catch cs s hhe]
      exact ⟨[], (List.append_nil _).symm⟩
    | SetTryAgainFieldToFalse =>
      rw [execute_stmt_marker s hhe]
      exact ⟨[], (List.append_nil _).symm⟩
  | true =>
    cases stmt with
    | CatchErr cs =>
      rw [execute_stmt_catch cs s hhe]
      rcases hr : execute_cmd_stmt cs (pushReplay (Stmt.CatchErr cs) s) with ⟨r, s1⟩
      have h1 : ∃ ext, s1.stmts = s.stmts ++ ext := by
        have := (execute_cmd_stmt_cl cs).ext (pushReplay (Stmt.CatchErr cs) s)
        rw [hr] at this
        exact this
      rcases h1 with ⟨ext, hext⟩
      cases r with
      | ok a => exact ⟨ext, by simpa using hext⟩
      | error e => exact ⟨ext, by simpa using hext⟩
    | Cmd cs =>
      rw [execute_stmt_skip _ s hhe (fun _ hc => Stmt.noConfusion hc)]
      exact ⟨[], (List.append_nil _).symm⟩
    | If is =>
      rw [execute_stmt_skip _ s hhe (fun _ hc => Stmt.noConfusion hc)]
      exact ⟨[], (List.append_nil _).symm⟩
    | SetVariable sv =>
      rw [execute_stmt_skip _ s hhe (fun _ hc => Stmt.noConfusion hc)]
      exact ⟨[], (List.append_nil _).symm⟩
    | Comment c =>
      rw [execute_stmt_skip _ s hhe (fun _ hc => Stmt.noConfusion hc)]
      exact ⟨[], (List.append_nil _).symm⟩
    | SetTryAgainFieldToFalse =>
      rw [execute_stmt_skip _ s hhe (fun _ hc => Stmt.noConfusion hc)]
      exact ⟨[], (List.append_nil _).symm⟩

theorem popEnd_concat (l : List α) (a : α) : popEnd (l ++ [a]) = some (a, l) := by
  simp [popEnd, List.getLast?_concat, List.dropLast_concat]

theorem popEnd_eq_some {l r : List α} {a : α} (h : popEnd l = some (a, r)) :
    l = r ++ [a] := by
  induction l using List.reverseRecOn with
  | nil => simp [popEnd] at h
  | append_singleton l' b ih =>
    rw [popEnd_concat] at h
    simp only [Option.some.injEq, Prod.mk.injEq] at h
    rw [← h.1, ← h.2]

theorem drainOrder_eq_reverse : ∀ l : List α, drainOrder l = l.reverse := by
  intro l
  induction l using List.reverseRecOn with
  | nil =>
    rw [drainOrder]
    rfl
  | append_singleton l' b ih =>
    rw [drainOrder, popEnd_concat]
    simp [ih]

theorem execute_stmt_ok_he_false (stmt : Stmt) (s2 s3 : St)
    (hex : execute_stmt stmt s2 = (.ok (), s3)) (h2 : s2.had_error = false) :
    s3.had_error = false := by
  cases h3 : s3.had_error with
  | false => rfl
  | true =>
    have := execute_stmt_he_down stmt s2 (by rw [hex]; exact h3)
    rw [h2] at this
    exact Bool.noConfusion this

theorem execute_stmt_ok_inv (stmt : Stmt) (s2 s3 : St)
    (hex : execute_stmt stmt s2 = (.ok (), s3))
    (h2 : s2.had_error = true) (hta : s2.tried_again = false) :
    ¬(s3.had_error = true ∧ s3.tried_again = true) := by
  cases stmt with
  | CatchErr cs =>
    rw [execute_stmt_catch cs s2 h2] at hex
    rcases hr : execute_cmd_stmt cs (pushReplay (Stmt.CatchErr cs) s2) with ⟨r, s1⟩
    rw [hr] at hex
    cases r with
    | ok a =>
      simp only [Prod.mk.injEq] at hex
      rw [← hex.2]
      intro hcon
      exact Bool.noConfusion hcon.1
    | error e => simp at hex
  | Cmd cs =>
    rw [execute_stmt_skip _ s2 h2 (fun _ hc => Stmt.noConfusion hc)] at hex
    simp only [Prod.mk.injEq] at hex
    rw [← hex.2]
    intro hcon
    rw [hta] at hcon
    exact Bool.noConfusion hcon.2
  | If is =>
    rw [execute_stmt_skip _ s2 h2 (fun _ hc => Stmt.noConfusion hc)] at hex
    simp only [Prod.mk.injEq] at hex
    rw [← hex.2]
    intro hcon
    rw [hta] at hcon
    exact Bool.noConfusion hcon.2
  | SetVariable sv =>
    rw [execute_stmt_skip _ s2 h2 (fun _ hc => Stmt.noConfusion hc)] at hex
    simp only [Prod.mk.injEq] at hex
    rw [← hex.2]
    intro hcon
    rw [hta] at hcon
    exact Bool.noConfusion hcon.2
  | Comment c =>
    rw [execute_stmt_skip _ s2 h2 (fun _ hc => Stmt.noConfusion hc)] at hex
    simp only [Prod.mk.injEq] at hex
    rw [← hex.2]
    intro hcon
    rw [hta] at hcon
    exact Bool.noConfusion hcon.2
  | SetTryAgainFieldToFalse =>
    rw [execute_stmt_skip _ s2 h2 (fun _ hc => Stmt.noConfusion hc)] at hex
    simp only [Prod.mk.injEq] at hex
    rw [← hex.2]
    intro hcon
    rw [hta] at hcon
    exact Bool.noConfusion hcon.2

theorem interpretStep_next_of_ok (c : Bool) (s : St) (stmt : Stmt) (rest : List Stmt)
    (s3 : St) (h : s.stmts = rest ++ [stmt]) (hhe : s.had_error = false)
    (hex : execute_stmt stmt (log_cmd (Stmt.toString stmt) { s with stmts := rest })
      = (.ok (), s3)) :
    interpretStep c s = .next s3 := by
  unfold interpretStep
  rw [h, popEnd_concat]
  rw [hhe] at hex
  simp [hhe, hex]

theorem interpretStep_next_of_recoverable (c : Bool) (s : St) (stmt : Stmt)
    (rest : List Stmt) (m : Str) (s3 : St)
    (h : s.stmts = rest ++ [stmt]) (hhe : s.had_error = false)
    (hex : execute_stmt stmt (log_cmd (Stmt.toString stmt) { s with stmts := rest })
      = (.error (m, Severity.Recoverable), s3)) :
    interpretStep c s = .next { log_err m s3 with had_error := true } := by
  unfold interpretStep
  rw [h, popEnd_concat]
  rw [hhe] at hex
  simp [hhe, hex]

theorem interpretStep_done_of_exit (c : Bool) (s : St) (stmt : Stmt)
    (rest : List Stmt) (m : Str) (s3 : St)
    (h : s.stmts = rest ++ [stmt]) (hhe : s.had_error = false)
    (hex : execute_stmt stmt (log_cmd (Stmt.toString stmt) { s with stmts := rest })
      = (.error (m, Severity.Exit), s3)) :
    ∃ s4, (interpretStep c s = .done (.finished true) s4 ∨
      interpretStep c s = .done .driverError s4) ∧
      s4.log_buffer = (log_err m s3).log_buffer ∧ s4.stmts = s3.stmts := by
  unfold interpretStep
  rw [h, popEnd_concat]
  rw [hhe] at hex
  simp [hhe, hex]
  cases c with
  | false => exact ⟨log_err m s3, Or.inl rfl, rfl, rfl⟩
  | true =>
    rcases hd : driverCall Effect.closeWindow (log_err m s3) with ⟨r, s5⟩
    have h5 : s5 = { (log_err m s3) with effects := (log_err m s3).effects ++ [Effect.closeWindow] } := by
      have := congrArg Prod.snd hd
      exact this.symm
    cases r with
    | ok => exact ⟨s5, Or.inl (by simp [hd]), by subst h5; rfl, by subst h5; rfl⟩
    | err => exact ⟨s5, Or.inr (by simp [hd]), by subst h5; rfl, by subst h5; rfl⟩
    | elem e => exact ⟨s5, Or.inr (by simp [hd]), by subst h5; rfl, by subst h5; rfl⟩
    | str t => exact ⟨s5, Or.inr (by simp [hd]), by subst h5; rfl, by subst h5; rfl⟩
    | bytes b => exact ⟨s5, Or.inr (by simp [hd]), by subst h5; rfl, by subst h5; rfl⟩

theorem interpretStep_skip (c : Bool) (s : St) (stmt : Stmt) (rest : List Stmt)
    (h : s.stmts = rest ++ [stmt]) (hhe : s.had_error = true)
    (hnc : ∀ cs, stmt ≠ Stmt.CatchErr cs) :
    interpretStep c s = .next { s with
      stmts := rest,
      stmts_since_last_error_handling :=
        (s.stmts_since_last_error_handling ++ [stmt]) ++ [stmt] } := by
  unfold interpretStep
  rw [h, popEnd_concat]
  have hex := execute_stmt_skip stmt ({ s with stmts := rest } : St) hhe hnc
  rw [hhe] at hex
  simp [hhe, hex]

theorem interpretStep_err_ok (c : Bool) (s : St) (stmt : Stmt) (rest : List Stmt)
    (s3 : St) (h : s.stmts = rest ++ [stmt]) (hhe : s.had_error = true)
    (hex : execute_stmt stmt { s with stmts := rest } = (.ok (), s3)) :
    interpretStep c s = .next s3 := by
  unfold interpretStep
  rw [h, popEnd_concat]
  rw [hhe] at hex
  simp [hhe, hex]

theorem interpretStep_err_recoverable (c : Bool) (s : St) (stmt : Stmt)
    (rest : List Stmt) (m : Str) (s3 : St)
    (h : s.stmts = rest ++ [stmt]) (hhe : s.had_error = true)
    (hex : execute_stmt stmt { s with stmts := rest }
      = (.error (m, Severity.Recoverable), s3)) :
    interpretStep c s = .next { log_err m s3 with had_error := true } := by
  unfold interpretStep
  rw [h, popEnd_concat]
  rw [hhe] at hex
  simp [hhe, hex]

theorem interpretStep_err_exit (c : Bool) (s : St) (stmt : Stmt)
    (rest : List Stmt) (m : Str) (s3 : St)
    (h : s.stmts = rest ++ [stmt]) (hhe : s.had_error = true)
    (hex : execute_stmt stmt { s with stmts := rest }
      = (.error (m, Severity.Exit), s3)) :
    ∃ s4, (interpretStep c s = .done (.finished true) s4 ∨
      interpretStep c s = .done .driverError s4) ∧
      s4.log_buffer = (log_err m s3).log_buffer ∧ s4.stmts = s3.stmts := by
  unfold interpretStep
  rw [h, popEnd_concat]
  rw [hhe] at hex
  simp [hhe, hex]
  cases c with
  | false => exact ⟨log_err m s3, Or.inl rfl, rfl, rfl⟩
  | true =>
    rcases hd : driverCall Effect.closeWindow (log_err m s3) with ⟨r, s5⟩
    have h5 : s5 = { (log_err m s3) with effects := (log_err m s3).effects ++ [Effect.closeWindow] } := by
      have := congrArg Prod.snd hd
      exact this.symm
    cases r with
    | ok => exact ⟨s5, Or.inl (by simp [hd]), by subst h5; rfl, by subst h5; rfl⟩
    | err => exact ⟨s5, Or.inr (by simp [hd]), by subst h5; rfl, by subst h5; rfl⟩
    | elem e => exact ⟨s5, Or.inr (by simp [hd]), by subst h5; rfl, by subst h5; rfl⟩
    | str t => exact ⟨s5, Or.inr (by simp [hd]), by subst h5; rfl, by subst h5; rfl⟩
    | bytes b => exact ⟨s5, Or.inr (by simp [hd]), by subst h5; rfl, by subst h5; rfl⟩

/-- The mutual-exclusion invariant: at the top of every loop iteration,
error mode and retry mode are never both active; every continuing step of
the interpret loop preserves it. -/
theorem interpretStep_inv (c : Bool) (s s' : St)
    (hinv : ¬(s.had_error = true ∧ s.tried_again = true))
    (hstep : interpretStep c s = .next s') :
    ¬(s'.had_error = true ∧ s'.tried_again = true) := by
  rcases hpop : popEnd s.stmts with _ | ⟨stmt, rest⟩
  · unfold interpretStep at hstep
    rw [hpop] at hstep
    cases c with
    | false => exact absurd hstep (by simp)
    | true =>
      rcases hd : driverCall Effect.closeWindow s with ⟨r, s5⟩
      rw [hd] at hstep
      cases r <;> simp at hstep
  · have hs : s.stmts = rest ++ [stmt] := popEnd_eq_some hpop
    cases hhe : s.had_error with
    | false =>
      rcases hex : execute_stmt stmt (log_cmd (Stmt.toString stmt) { s with stmts := rest })
        with ⟨r, s3⟩
      cases r with
      | ok a =>
        rw [interpretStep_next_of_ok c s stmt rest s3 hs hhe hex] at hstep
        have hs3 : s3.had_error = false :=
          execute_stmt_ok_he_false stmt _ s3 hex hhe
        injection hstep with h'
        rw [← h']
        intro hcon
        rw [hs3] at hcon
        exact Bool.noConfusion hcon.1
      | error e =>
        rcases e with ⟨m, sev⟩
        cases sev with
        | Exit =>
          rcases interpretStep_done_of_exit c s stmt rest m s3 hs hhe hex with ⟨s4, hd | hd, hl4, hq4⟩
          · rw [hd] at hstep
            exact absurd hstep (by simp)
          · rw [hd] at hstep
            exact absurd hstep (by simp)
        | Recoverable =>
          have hta3 : s3.tried_again = false := by
            have := execute_stmt_sev stmt _ m Severity.Recoverable s3 hex
            cases h3 : s3.tried_again with
            | false => rfl
            | true => rw [h3] at this; exact absurd this (by simp)
          rw [interpretStep_next_of_recoverable c s stmt rest m s3 hs hhe hex] at hstep
          injection hstep with h'
          rw [← h']
          intro hcon
          have : s3.tried_again = true := hcon.2
          rw [hta3] at this
          exact Bool.noConfusion this
    | true =>
      have hta : s.tried_again = false := by
        cases h3 : s.tried_again with
        | false => rfl
        | true => exact absurd ⟨hhe, h3⟩ hinv
      rcases hex : execute_stmt stmt ({ s with stmts := rest }) with ⟨r, s3⟩
      cases r with
      | ok a =>
        rw [interpretStep_err_ok c s stmt rest s3 hs hhe hex] at hstep
        injection hstep with h'
        rw [← h']
        exact execute_stmt_ok_inv stmt _ s3 hex hhe hta
      | error e =>
        rcases e with ⟨m, sev⟩
        cases sev with
        | Exit =>
          rcases interpretStep_err_exit c s stmt rest m s3 hs hhe hex with ⟨s4, hd | hd, hl4, hq4⟩
          · rw [hd] at hstep
            exact absurd hstep (by simp)
          · rw [hd] at hstep
            exact absurd hstep (by simp)
        | Recoverable =>
          have hta3 : s3.tried_again = false := by
            have := execute_stmt_sev stmt _ m Severity.Recoverable s3 hex
            cases h3 : s3.tried_again with
            | false => rfl
            | true => rw [h3] at this; exact absurd this (by simp)
          rw [interpretStep_err_recoverable c s stmt rest m s3 hs hhe hex] at hstep
          injection hstep with h'
          rw [← h']
          intro hcon
          have : s3.tried_again = true := hcon.2
          rw [hta3] at this
          exact Bool.noConfusion this

theorem MFixes.comp {g : St → β} {x : M α} {f : α → M γ}
    (hx : MFixes g x) (hf : ∀ a, MFixes g (f a)) : MFixes g (x >>= f) := by
  intro s
  rw [M.bind_app]
  rcases hxs : x s with ⟨r, s1⟩
  have h1 : g s1 = g s := by
    have := hx s
    rw [hxs] at this
    exact this
  cases r with
  | ok a =>
    have := (hf a) s1
    simp only []
    rw [this, h1]
  | error e => simpa using h1

theorem MFixes.branch {g : St → β} {c : Prop} [Decidable c] {x y : M α}
    (hx : MFixes g x) (hy : MFixes g y) : MFixes g (if c then x else y) := by
  split
  · exact hx
  · exact hy

theorem MFixesOnErr.of_fixes {g : St → β} {m : M α} (h : MFixes g m) :
    MFixesOnErr g m := by
  intro s e s' hm
  have := h s
  rw [hm] at this
  exact this

theorem MFixesOnErr.chain {g : St → β} {x : M α} {f : α → M γ}
    (hx : MFixes g x) (hf : ∀ a, MFixesOnErr g (f a)) :
    MFixesOnErr g (x >>= f) := by
  intro s e s' hm
  rw [M.bind_app] at hm
  rcases hxs : x s with ⟨r, s1⟩
  rw [hxs] at hm
  have h1 : g s1 = g s := by
    have := hx s
    rw [hxs] at this
    exact this
  cases r with
  | ok a => rw [(hf a) s1 e s' hm, h1]
  | error e1 =>
    simp only [Prod.mk.injEq] at hm
    rw [← hm.2, h1]

theorem pure_fixes (g : St → β) (a : α) : MFixes g (Pure.pure a : M α) :=
  fun s => rfl

theorem throwErr_fixes (g : St → β) (msg : Str) : MFixes g (throwErr msg : M α) :=
  fun s => rfl

theorem getS_fixes (g : St → β) : MFixes g M.get := fun s => rfl

theorem check_fixes (g : St → β) (r : DResp) (msg : Str) : MFixes g (check r msg) :=
  MFixes.branch (pure_fixes g _) (throwErr_fixes g _)

theorem asStr_fixes (g : St → β) (r : DResp) (msg : Str) : MFixes g (asStr r msg) := by
  cases r
  · exact throwErr_fixes g _
  · exact throwErr_fixes g _
  · exact throwErr_fixes g _
  · exact pure_fixes g _
  · exact throwErr_fixes g _

theorem asElem_fixes (g : St → β) (r : DResp) (msg : Str) : MFixes g (asElem r msg) := by
  cases r
  · exact throwErr_fixes g _
  · exact throwErr_fixes g _
  · exact pure_fixes g _
  · exact throwErr_fixes g _
  · exact throwErr_fixes g _

theorem asBytes_fixes (g : St → β) (r : DResp) (msg : Str) : MFixes g (asBytes r msg) := by
  cases r
  · exact throwErr_fixes g _
  · exact throwErr_fixes g _
  · exact throwErr_fixes g _
  · exact throwErr_fixes g _
  · exact pure_fixes g _

theorem keyFor_fixes (g : St → β) (k : Str) : MFixes g (keyFor k) := by
  unfold keyFor
  split
  · exact pure_fixes g _
  · exact throwErr_fixes g _

theorem get_curr_elem_fixes (g : St → β) : MFixes g get_curr_elem := by
  unfold get_curr_elem
  refine MFixes.comp (getS_fixes g) fun s => ?_
  cases s.curr_elem
  · exact throwErr_fixes g _
  · exact pure_fixes g _

theorem get_variable_fixes (g : St → β) (name : Str) : MFixes g (get_variable name) := by
  unfold get_variable
  refine MFixes.comp (getS_fixes g) fun s => ?_
  cases s.environment.get_variable name
  · exact throwErr_fixes g _
  · exact pure_fixes g _

theorem resolve_fixes (g : St → β) (cp : CmdParam) : MFixes g (resolve cp) := by
  unfold resolve
  cases cp
  · exact pure_fixes g _
  · exact get_variable_fixes g _

theorem callDriver_fixes (g : St → β)
    (hg : ∀ s l, g { s with effects := l } = g s) (eff : Effect) :
    MFixes g (callDriver eff) := fun s => hg s _

theorem recordEffect_fixes (g : St → β)
    (hg : ∀ s l, g { s with effects := l } = g s) (eff : Effect) :
    MFixes g (recordEffect eff) := fun s => hg s _

theorem modifyS_onErr (g : St → β) (f : St → St) : MFixesOnErr g (M.modifyS f) := by
  intro s e s' h
  simp [M.modifyS] at h

theorem scrollStep_fixes (g : St → β)
    (hg : ∀ s l, g { s with effects := l } = g s) (e : Elem) (sc : Bool) :
    MFixes g (scrollStep e sc) := by
  unfold scrollStep
  refine MFixes.branch ?_ (pure_fixes g _)
  exact MFixes.comp (callDriver_fixes g hg _) fun r => check_fixes g _ _

theorem demoStep_fixes (g : St → β)
    (hg : ∀ s l, g { s with effects := l } = g s) (e : Elem) :
    MFixes g (demoStep e) := by
  unfold demoStep
  refine MFixes.comp (getS_fixes g) fun s => ?_
  refine MFixes.branch ?_ (pure_fixes g _)
  refine MFixes.comp (callDriver_fixes g hg _) fun j => ?_
  refine MFixes.comp (check_fixes g _ _) fun _ => ?_
  refine MFixes.comp (callDriver_fixes g hg _) fun h => ?_
  refine MFixes.comp (check_fixes g _ _) fun _ => ?_
  refine MFixes.comp (getS_fixes g) fun s2 => ?_
  cases s2.curr_elem with
  | none => exact pure_fixes g _
  | some curr =>
    refine MFixes.comp (callDriver_fixes g hg _) fun j2 => ?_
    refine MFixes.comp (check_fixes g _ _) fun _ => ?_
    exact MFixes.comp (callDriver_fixes g hg _) fun _ => pure_fixes g _

/-- The probe projection: the components of the state a failing single
command can never change (besides error mode, covered by Cmdlike). -/
theorem set_curr_elem_fixes3 (e : Elem) (sc : Bool) :
    MFixes (fun s => (s.environment, s.screenshot_buffer, s.tried_again))
      (set_curr_elem e sc) := by
  unfold set_curr_elem
  refine MFixes.comp (scrollStep_fixes (fun s => (s.environment, s.screenshot_buffer, s.tried_again)) (fun _ _ => rfl) e sc) fun _ => ?_
  refine MFixes.comp (demoStep_fixes (fun s => (s.environment, s.screenshot_buffer, s.tried_again)) (fun _ _ => rfl) e) fun _ => ?_
  intro s
  rfl

theorem tryQuery_fixes (g : St → β)
    (hg : ∀ s l, g { s with effects := l } = g s) (q : LocateQuery) :
    MFixes g (tryQuery q) := by
  unfold tryQuery
  refine MFixes.comp (callDriver_fixes g hg _) fun r => ?_
  cases r
  · exact pure_fixes g _
  · exact pure_fixes g _
  · exact pure_fixes g _
  · exact pure_fixes g _
  · exact pure_fixes g _

theorem tryStrategies_fixes3 (qs : List LocateQuery) (sc : Bool) :
    MFixes (fun s => (s.environment, s.screenshot_buffer, s.tried_again))
      (tryStrategies qs sc) := by
  induction qs with
  | nil => exact pure_fixes _ _
  | cons q rest ih =>
    unfold tryStrategies
    refine MFixes.comp (tryQuery_fixes (fun s => (s.environment, s.screenshot_buffer, s.tried_again)) (fun _ _ => rfl) q) fun r => ?_
    cases r with
    | some e => exact MFixes.comp (set_curr_elem_fixes3 e sc) fun _ => pure_fixes _ _
    | none => exact ih

theorem locateLoop_fixes3 (l : Str) (waits : List Nat) (sc : Bool) :
    MFixes (fun s => (s.environment, s.screenshot_buffer, s.tried_again))
      (locateLoop l waits sc) := by
  induction waits with
  | nil => exact throwErr_fixes _ _
  | cons w rest ih =>
    unfold locateLoop
    refine MFixes.comp (tryStrategies_fixes3 _ sc) fun hit => ?_
    exact MFixes.branch (pure_fixes _ _) ih

theorem locate_fixes3 (cp : CmdParam) (sc : Bool) :
    MFixes (fun s => (s.environment, s.screenshot_buffer, s.tried_again))
      (locate cp sc) := by
  unfold locate
  exact MFixes.comp (resolve_fixes _ _) fun l => locateLoop_fixes3 l _ sc

/-- A failing command leaves the environment, the screenshot buffer and the
tried_again flag unchanged: the only operations writing them (read_to's
variable store, screenshot's buffer push, try_again's flag set) sit after
every failure point of their commands. -/
theorem execute_cmd_probe (cmd : Cmd) :
    MFixesOnErr (fun s => (s.environment, s.screenshot_buffer, s.tried_again))
      (execute_cmd cmd) := by
  unfold execute_cmd
  refine MFixesOnErr.chain (recordEffect_fixes (fun s => (s.environment, s.screenshot_buffer, s.tried_again)) (fun _ _ => rfl) _) fun _ => ?_
  cases cmd with
  | Locate l => exact MFixesOnErr.of_fixes (locate_fixes3 l true)
  | LocateNoScroll l => exact MFixesOnErr.of_fixes (locate_fixes3 l false)
  | Type_ t =>
    refine MFixesOnErr.of_fixes ?_
    unfold type_into_elem
    refine MFixes.comp (resolve_fixes _ _) fun txt => ?_
    refine MFixes.comp (get_curr_elem_fixes _) fun e => ?_
    refine MFixes.comp (callDriver_fixes (fun s => (s.environment, s.screenshot_buffer, s.tried_again)) (fun _ _ => rfl) _) fun r => ?_
    refine MFixes.comp (check_fixes _ _ _) fun _ => ?_
    refine MFixes.comp (get_curr_elem_fixes _) fun e2 => ?_
    exact MFixes.comp (callDriver_fixes (fun s => (s.environment, s.screenshot_buffer, s.tried_again)) (fun _ _ => rfl) _) fun r2 => check_fixes _ _ _
  | Click =>
    refine MFixesOnErr.of_fixes ?_
    unfold click
    refine MFixes.comp (get_curr_elem_fixes _) fun e => ?_
    exact MFixes.comp (callDriver_fixes (fun s => (s.environment, s.screenshot_buffer, s.tried_again)) (fun _ _ => rfl) _) fun r => check_fixes _ _ _
  | Refresh =>
    refine MFixesOnErr.of_fixes ?_
    unfold refresh
    exact MFixes.comp (callDriver_fixes (fun s => (s.environment, s.screenshot_buffer, s.tried_again)) (fun _ _ => rfl) _) fun r => check_fixes _ _ _
  | TryAgain =>
    unfold try_again
    exact modifyS_onErr _ _
  | Screenshot =>
    unfold screenshot
    refine MFixesOnErr.chain (fun s => rfl) fun _ => ?_
    refine MFixesOnErr.chain (callDriver_fixes (fun s => (s.environment, s.screenshot_buffer, s.tried_again)) (fun _ _ => rfl) _) fun r => ?_
    refine MFixesOnErr.chain (asBytes_fixes _ _ _) fun ss => ?_
    exact modifyS_onErr _ _
  | ReadTo n =>
    unfold read_to
    refine MFixesOnErr.chain (get_curr_elem_fixes _) fun e => ?_
    refine MFixesOnErr.chain (callDriver_fixes (fun s => (s.environment, s.screenshot_buffer, s.tried_again)) (fun _ _ => rfl) _) fun r => ?_
    refine MFixesOnErr.chain (asStr_fixes _ _ _) fun txt => ?_
    exact modifyS_onErr _ _
  | Url u =>
    refine MFixesOnErr.of_fixes ?_
    unfold url_cmd
    refine MFixes.comp (resolve_fixes _ _) fun s => ?_
    exact MFixes.comp (callDriver_fixes (fun s => (s.environment, s.screenshot_buffer, s.tried_again)) (fun _ _ => rfl) _) fun r => check_fixes _ _ _
  | Press k =>
    refine MFixesOnErr.of_fixes ?_
    unfold press
    refine MFixes.comp (resolve_fixes _ _) fun kk => ?_
    refine MFixes.comp (keyFor_fixes _ _) fun key => ?_
    refine MFixes.comp (get_curr_elem_fixes _) fun e => ?_
    exact MFixes.comp (callDriver_fixes (fun s => (s.environment, s.screenshot_buffer, s.tried_again)) (fun _ _ => rfl) _) fun r => check_fixes _ _ _
  | Chill ccc =>
    refine MFixesOnErr.of_fixes ?_
    unfold chill
    refine MFixes.comp (resolve_fixes _ _) fun t => ?_
    cases t.toNat?
    · exact throwErr_fixes _ _
    · exact recordEffect_fixes (fun s => (s.environment, s.screenshot_buffer, s.tried_again)) (fun _ _ => rfl) _
  | Select ccc =>
    refine MFixesOnErr.of_fixes ?_
    unfold select
    refine MFixes.comp (resolve_fixes _ _) fun t => ?_
    refine MFixes.comp (get_curr_elem_fixes _) fun e => ?_
    refine MFixes.comp (callDriver_fixes (fun s => (s.environment, s.screenshot_buffer, s.tried_again)) (fun _ _ => rfl) _) fun tn => ?_
    refine MFixes.comp (asStr_fixes _ _ _) fun tag => ?_
    refine MFixes.comp ?_ fun _ => ?_
    · unfold selectRefocusStep
      refine MFixes.branch ?_ (pure_fixes _ _)
      refine MFixes.comp (get_curr_elem_fixes _) fun e2 => ?_
      refine MFixes.comp (callDriver_fixes (fun s => (s.environment, s.screenshot_buffer, s.tried_again)) (fun _ _ => rfl) _) fun pr => ?_
      exact MFixes.comp (asElem_fixes _ _ _) fun ps => set_curr_elem_fixes3 ps false
    refine MFixes.comp (get_curr_elem_fixes _) fun e3 => ?_
    refine MFixes.comp (callDriver_fixes (fun s => (s.environment, s.screenshot_buffer, s.tried_again)) (fun _ _ => rfl) _) fun w => ?_
    refine MFixes.comp (check_fixes _ _ _) fun _ => ?_
    exact MFixes.comp (callDriver_fixes (fun s => (s.environment, s.screenshot_buffer, s.tried_again)) (fun _ _ => rfl) _) fun r => check_fixes _ _ _
  | DragTo ccc =>
    refine MFixesOnErr.of_fixes ?_
    unfold drag_to
    refine MFixes.comp (get_curr_elem_fixes _) fun current => ?_
    refine MFixes.comp (locate_fixes3 ccc false) fun _ => ?_
    refine MFixes.comp (get_curr_elem_fixes _) fun tgt => ?_
    exact MFixes.comp (callDriver_fixes (fun s => (s.environment, s.screenshot_buffer, s.tried_again)) (fun _ _ => rfl) _) fun r => check_fixes _ _ _
  | Upload ccc =>
    refine MFixesOnErr.of_fixes ?_
    unfold upload
    refine MFixes.comp (resolve_fixes _ _) fun p => ?_
    refine MFixes.comp (get_curr_elem_fixes _) fun e => ?_
    exact MFixes.comp (callDriver_fixes (fun s => (s.environment, s.screenshot_buffer, s.tried_again)) (fun _ _ => rfl) _) fun r => check_fixes _ _ _

theorem execute_if_stmt_probe_ok (is : IfStmt) (s : St) (a : Unit) (s1 : St)
    (h : execute_cmd is.condition s = (.ok a, s1)) :
    execute_if_stmt is s = execute_cmd_stmt is.then_branch s1 := by
  unfold execute_if_stmt
  rw [h]

theorem execute_if_stmt_probe_err (is : IfStmt) (s : St) (e : RuntimeError) (s1 : St)
    (h : execute_cmd is.condition s = (.error e, s1)) :
    execute_if_stmt is s = (.ok (), s1) := by
  unfold execute_if_stmt
  rw [h]

theorem set_curr_elem_err_curr (e : Elem) (sc : Bool) :
    MFixesOnErr (fun s => s.curr_elem) (set_curr_elem e sc) := by
  unfold set_curr_elem
  refine MFixesOnErr.chain
    (scrollStep_fixes (fun s => s.curr_elem) (fun _ _ => rfl) e sc) fun _ => ?_
  refine MFixesOnErr.chain
    (demoStep_fixes (fun s => s.curr_elem) (fun _ _ => rfl) e) fun _ => ?_
  exact modifyS_onErr _ _

/-- The current element is replaced exactly at the final assignment of a
fully successful set_curr_elem (interpreter.rs line 182). -/
theorem set_curr_elem_ok_curr (e : Elem) (sc : Bool) (s : St) (a : Unit) (s' : St)
    (h : set_curr_elem e sc s = (.ok a, s')) : s'.curr_elem = some e := by
  unfold set_curr_elem at h
  rw [M.bind_app] at h
  rcases h1 : scrollStep e sc s with ⟨r1, t1⟩
  rw [h1] at h
  cases r1 with
  | error e1 => simp at h
  | ok u1 =>
    simp only [] at h
    rw [M.bind_app] at h
    rcases h2 : demoStep e t1 with ⟨r2, t2⟩
    rw [h2] at h
    cases r2 with
    | error e2 => simp at h
    | ok u2 =>
      simp only [] at h
      simp only [M.modifyS, Prod.mk.injEq] at h
      rw [← h.2]

theorem tryStrategies_curr_of_ne (qs : List LocateQuery) (sc : Bool) :
    ∀ (s : St) (r : Except RuntimeError Bool) (s' : St),
      tryStrategies qs sc s = (r, s') → r ≠ .ok true → s'.curr_elem = s.curr_elem := by
  induction qs with
  | nil =>
    intro s r s' h hne
    rw [show tryStrategies [] sc = (Pure.pure false : M Bool) from rfl, M.pure_app] at h
    cases h
    rfl
  | cons q rest ih =>
    intro s r s' h hne
    unfold tryStrategies at h
    rw [M.bind_app] at h
    rcases hq : tryQuery q s with ⟨rq, s1⟩
    rw [hq] at h
    have hcurr1 : s1.curr_elem = s.curr_elem := by
      have := tryQuery_fixes (fun s => s.curr_elem) (fun _ _ => rfl) q s
      rw [hq] at this
      exact this
    cases rq with
    | error e0 =>
      cases h
      exact hcurr1
    | ok ro =>
      cases ro with
      | some e =>
        simp only [] at h
        rw [M.bind_app] at h
        rcases hsc : set_curr_elem e sc s1 with ⟨rs, s2⟩
        rw [hsc] at h
        cases rs with
        | ok a =>
          simp only [] at h
          rw [M.pure_app] at h
          cases h
          exact absurd rfl hne
        | error e2 =>
          simp only [Prod.mk.injEq] at h
          rcases h with ⟨hr, hs⟩
          rw [← hs]
          exact (set_curr_elem_err_curr e sc s1 e2 s2 hsc).trans hcurr1
      | none =>
        simp only [] at h
        exact (ih s1 r s' h hne).trans hcurr1

theorem locateLoop_err_curr (l : Str) (sc : Bool) :
    ∀ (waits : List Nat) (s : St) (e' : RuntimeError) (s' : St),
      locateLoop l waits sc s = (.error e', s') → s'.curr_elem = s.curr_elem := by
  intro waits
  induction waits with
  | nil =>
    intro s e' s' h
    unfold locateLoop at h
    simp only [throwErr] at h
    cases h
    rfl
  | cons w rest ih =>
    intro s e' s' h
    unfold locateLoop at h
    rw [M.bind_app] at h
    rcases ht : tryStrategies (passQueries l w) sc s with ⟨rt, s1⟩
    rw [ht] at h
    cases rt with
    | error e0 =>
      simp only [Prod.mk.injEq] at h
      rcases h with ⟨hr, hs⟩
      rw [← hs]
      exact tryStrategies_curr_of_ne (passQueries l w) sc s (Except.error e0) s1 ht
        (by simp)
    | ok hit =>
      simp only [] at h
      cases hit with
      | true => simp [M.pure_app] at h
      | false =>
        have hcur1 : s1.curr_elem = s.curr_elem :=
          tryStrategies_curr_of_ne _ sc s _ s1 ht (by simp)
        rw [if_neg (by simp)] at h
        exact (ih s1 e' s' h).trans hcur1

theorem locate_err_curr (cp : CmdParam) (sc : Bool) :
    MFixesOnErr (fun s => s.curr_elem) (locate cp sc) := by
  unfold locate
  refine MFixesOnErr.chain (resolve_fixes (fun s => s.curr_elem) cp) fun l => ?_
  intro s e s' h
  exact locateLoop_err_curr l sc _ s e s' h

theorem execute_cmd_locate_err_curr (lp : CmdParam) (sc : Bool) :
    MFixesOnErr (fun s => s.curr_elem)
      (execute_cmd (if sc then Cmd.Locate lp else Cmd.LocateNoScroll lp)) := by
  cases sc with
  | true =>
    unfold execute_cmd
    refine MFixesOnErr.chain
      (recordEffect_fixes (fun s => s.curr_elem) (fun _ _ => rfl) _) fun _ => ?_
    exact locate_err_curr lp true
  | false =>
    unfold execute_cmd
    refine MFixesOnErr.chain
      (recordEffect_fixes (fun s => s.curr_elem) (fun _ _ => rfl) _) fun _ => ?_
    exact locate_err_curr lp false

theorem callDriver_app (eff : Effect) (s : St) :
    callDriver eff s = (.ok (s.drv s.effects.length eff),
      { s with effects := s.effects ++ [eff] }) := rfl

theorem tryQuery_miss (q : LocateQuery) (s : St)
    (h : ∀ e, s.drv s.effects.length (Effect.query q) ≠ DResp.elem e) :
    tryQuery q s = (.ok none, { s with effects := s.effects ++ [Effect.query q] }) := by
  unfold tryQuery
  rw [M.bind_app, callDriver_app]
  simp only []
  rcases hr : s.drv s.effects.length (Effect.query q) with _ | _ | e | t | b
  · rfl
  · rfl
  · exact absurd hr (h e)
  · rfl
  · rfl

theorem tryQuery_hit (q : LocateQuery) (s : St) (e : Elem)
    (h : s.drv s.effects.length (Effect.query q) = DResp.elem e) :
    tryQuery q s = (.ok (some e), { s with effects := s.effects ++ [Effect.query q] }) := by
  unfold tryQuery
  rw [M.bind_app, callDriver_app]
  simp only []
  rw [h]
  rfl

theorem tryStrategies_miss (sc : Bool) : ∀ (qs : List LocateQuery) (s : St),
    (∀ n q e, q ∈ qs → s.drv n (Effect.query q) ≠ DResp.elem e) →
    tryStrategies qs sc s =
      (.ok false, { s with effects := s.effects ++ qs.map Effect.query }) := by
  intro qs
  induction qs with
  | nil =>
    intro s h
    simp [tryStrategies, M.pure_app]
  | cons q rest ih =>
    intro s h
    unfold tryStrategies
    rw [M.bind_app, tryQuery_miss q s (fun e => h s.effects.length q e (by simp))]
    simp only []
    rw [ih { s with effects := s.effects ++ [Effect.query q] }
      (fun n q' e' hq' => h n q' e' (by simp [hq']))]
    simp [List.append_assoc]

theorem tryStrategies_hit (sc : Bool) (e : Elem) :
    ∀ (pre : List LocateQuery) (q : LocateQuery) (post : List LocateQuery) (s : St),
      (∀ n q' e', q' ∈ pre → s.drv n (Effect.query q') ≠ DResp.elem e') →
      (∀ n, s.drv n (Effect.query q) = DResp.elem e) →
      tryStrategies (pre ++ q :: post) sc s =
        (set_curr_elem e sc >>= fun _ => (Pure.pure true : M Bool))
          { s with effects := s.effects ++ pre.map Effect.query ++ [Effect.query q] } := by
  intro pre
  induction pre with
  | nil =>
    intro q post s hmiss hhit
    rw [List.nil_append]
    unfold tryStrategies
    rw [M.bind_app, tryQuery_hit q s e (hhit _)]
    simp only [List.map_nil, List.append_nil]
  | cons p pre' ih =>
    intro q post s hmiss hhit
    rw [List.cons_append]
    unfold tryStrategies
    rw [M.bind_app, tryQuery_miss p s (fun e' => hmiss s.effects.length p e' (by simp))]
    simp only []
    rw [ih q post { s with effects := s.effects ++ [Effect.query p] }
      (fun n q' e' hq' => hmiss n q' e' (by simp [hq'])) hhit]
    congr 1
    simp [List.append_assoc]

theorem locateLoop_miss (l : Str) (sc : Bool) :
    ∀ (waits : List Nat) (s : St),
      (∀ n q e, s.drv n (Effect.query q) ≠ DResp.elem e) →
      locateLoop l waits sc s =
        (.error ("Could not locate the element",
           if s.tried_again then Severity.Exit else Severity.Recoverable),
         { s with effects := s.effects ++
             ((waits.map (passQueries l)).flatten).map Effect.query }) := by
  intro waits
  induction waits with
  | nil =>
    intro s h
    unfold locateLoop
    simp only [List.map_nil, List.flatten_nil, List.append_nil]
    show throwErr "Could not locate the element" s =
      (Except.error ("Could not locate the element",
         if s.tried_again then Severity.Exit else Severity.Recoverable), s)
    unfold throwErr error
    by_cases hta : s.tried_again
    · simp [hta]
    · simp [hta]
  | cons w rest ih =>
    intro s h
    unfold locateLoop
    rw [M.bind_app, tryStrategies_miss sc (passQueries l w) s (fun n q e _ => h n q e)]
    simp only []
    rw [if_neg (by simp)]
    rw [ih { s with effects := s.effects ++ (passQueries l w).map Effect.query } h]
    simp [List.append_assoc]

theorem locateLoop_cons_app (l : Str) (w : Nat) (rest : List Nat) (sc : Bool) (s : St) :
    locateLoop l (w :: rest) sc s =
      branchOnHit (locateLoop l rest sc) (tryStrategies (passQueries l w) sc s) := by
  show ((do
      let hit ← tryStrategies (passQueries l w) sc
      if hit = true then pure () else locateLoop l rest sc : M Unit)) s =
    branchOnHit (locateLoop l rest sc) (tryStrategies (passQueries l w) sc s)
  rw [M.bind_app]
  rcases ht : tryStrategies (passQueries l w) sc s with ⟨r, s1⟩
  cases r with
  | ok hit =>
    cases hit with
    | true => simp [M.pure_app, branchOnHit]
    | false => simp [branchOnHit]
  | error e1 => simp [branchOnHit]

theorem branchOnHit_bind_true (x : M Unit) (els : M Unit) (st : St) :
    branchOnHit els ((x >>= fun _ => (Pure.pure true : M Bool)) st) =
      (x >>= fun _ => (Pure.pure () : M Unit)) st := by
  rw [M.bind_app, M.bind_app]
  rcases hx : x st with ⟨r, s1⟩
  cases r with
  | ok a => simp [M.pure_app, branchOnHit]
  | error e1 => rfl

theorem locateLoop_hit (l : Str) (sc : Bool) (e : Elem) :
    ∀ (waits : List Nat) (s : St) (pre : List LocateQuery) (q : LocateQuery)
      (post : List LocateQuery),
      (waits.map (passQueries l)).flatten = pre ++ q :: post →
      (∀ n q' e', q' ∈ pre → s.drv n (Effect.query q') ≠ DResp.elem e') →
      (∀ n, s.drv n (Effect.query q) = DResp.elem e) →
      locateLoop l waits sc s =
        (set_curr_elem e sc >>= fun _ => (Pure.pure () : M Unit))
          { s with effects := s.effects ++ pre.map Effect.query ++ [Effect.query q] } := by
  intro waits
  induction waits with
  | nil =>
    intro s pre q post hsplit hmiss hhit
    simp at hsplit
  | cons w rest ih =>
    intro s pre q post hsplit hmiss hhit
    rw [List.map_cons, List.flatten_cons] at hsplit
    rcases List.append_eq_append_iff.mp hsplit with ⟨a', ha1, ha2⟩ | ⟨c', hc1, hc2⟩
    · -- the hit lies beyond the first pass: the whole pass misses
      unfold locateLoop
      rw [M.bind_app, tryStrategies_miss sc (passQueries l w) s
        (fun n q' e' hq' => hmiss n q' e' (by rw [ha1]; exact List.mem_append_left _ hq'))]
      simp only []
      rw [if_neg (by simp)]
      rw [ih { s with effects := s.effects ++ (passQueries l w).map Effect.query }
        a' q post ha2
        (fun n q' e' hq' => hmiss n q' e' (by rw [ha1]; exact List.mem_append_right _ hq'))
        hhit]
      congr 1
      rw [ha1]
      simp [List.append_assoc]
    · cases c' with
      | nil =>
        -- boundary: the first pass is exactly the miss prefix
        rw [List.append_nil] at hc1
        rw [List.nil_append] at hc2
        unfold locateLoop
        rw [M.bind_app, tryStrategies_miss sc (passQueries l w) s
          (fun n q' e' hq' => hmiss n q' e' (by rw [hc1] at hq'; exact hq'))]
        simp only []
        rw [if_neg (by simp)]
        rw [ih { s with effects := s.effects ++ (passQueries l w).map Effect.query }
          [] q post (by rw [← hc2, List.nil_append])
          (by intro n q' e' hq'; simp at hq') hhit]
        congr 1
        rw [hc1]
        simp [List.append_assoc]
      | cons c0 c'' =>
        -- the hit lies inside the first pass
        have hq0 : q = c0 ∧ post = c'' ++ (rest.map (passQueries l)).flatten := by
          rw [List.cons_append] at hc2
          exact ⟨(List.cons.injEq _ _ _ _).mp hc2 |>.1,
                 (List.cons.injEq _ _ _ _).mp hc2 |>.2⟩
        rcases hq0 with ⟨hq0, hpost⟩
        rw [locateLoop_cons_app]
        rw [show passQueries l w = pre ++ q :: c'' by rw [hc1, hq0]]
        rw [tryStrategies_hit sc e pre q c'' s hmiss hhit]
        exact branchOnHit_bind_true (set_curr_elem e sc) (locateLoop l rest sc) _

theorem flatten_passes (l : Str) :
    (([0, 5, 10].map (passQueries l)).flatten) = allPassQueries l := by
  simp [allPassQueries, List.append_assoc]

theorem locate_app_string (l : Str) (sc : Bool) (s : St) :
    locate (CmdParam.String l) sc s = locateLoop l [0, 5, 10] sc s := rfl

theorem log_cmd_log (msg : Str) (s : St) :
    (log_cmd msg s).log_buffer = s.log_buffer ++ ("Info: " ++ msg ++ "\n") := rfl

theorem log_err_log (msg : Str) (s : St) :
    (log_err msg s).log_buffer = s.log_buffer ++ ("Error: " ++ msg ++ "\n") := rfl

/-- Dequeuing a statement while NOT in error mode contributes exactly one
Info statement line, followed only by well-formed report lines. -/
theorem interpretStep_stmt_line (c : Bool) (s : St) (stmt : Stmt) (rest : List Stmt)
    (h : s.stmts = rest ++ [stmt]) (hhe : s.had_error = false) :
    ∃ d, GoodLog d ∧ (StepRes.state (interpretStep c s)).log_buffer =
      (s.log_buffer ++ stmtLogLine stmt) ++ d := by
  rcases hex : execute_stmt stmt (log_cmd (Stmt.toString stmt) { s with stmts := rest })
    with ⟨r, s3⟩
  have hlog3 : ∃ d, GoodLog d ∧
      s3.log_buffer = (s.log_buffer ++ stmtLogLine stmt) ++ d := by
    rcases execute_stmt_log stmt (log_cmd (Stmt.toString stmt) { s with stmts := rest })
      with ⟨d, hg, hd⟩
    rw [hex] at hd
    exact ⟨d, hg, by rw [hd]; rfl⟩
  rcases hlog3 with ⟨d, hg, hd⟩
  cases r with
  | ok a =>
    rw [interpretStep_next_of_ok c s stmt rest s3 h hhe hex]
    exact ⟨d, hg, hd⟩
  | error e =>
    rcases e with ⟨m, sev⟩
    cases sev with
    | Recoverable =>
      rw [interpretStep_next_of_recoverable c s stmt rest m s3 h hhe hex]
      refine ⟨d ++ ("Error: " ++ m ++ "\n"),
        GoodLog.append _ _ hg (GoodLog.error m), ?_⟩
      show (log_err m s3).log_buffer = (s.log_buffer ++ stmtLogLine stmt) ++ (d ++ ("Error: " ++ m ++ "\n"))
      rw [log_err_log, hd, String.append_assoc]
    | Exit =>
      rcases interpretStep_done_of_exit c s stmt rest m s3 h hhe hex
        with ⟨s4, hdone | hdone, hl4, hq4⟩
      · rw [hdone]
        refine ⟨d ++ ("Error: " ++ m ++ "\n"),
          GoodLog.append _ _ hg (GoodLog.error m), ?_⟩
        show s4.log_buffer = (s.log_buffer ++ stmtLogLine stmt) ++ (d ++ ("Error: " ++ m ++ "\n"))
        rw [hl4, log_err_log, hd, String.append_assoc]
      · rw [hdone]
        refine ⟨d ++ ("Error: " ++ m ++ "\n"),
          GoodLog.append _ _ hg (GoodLog.error m), ?_⟩
        show s4.log_buffer = (s.log_buffer ++ stmtLogLine stmt) ++ (d ++ ("Error: " ++ m ++ "\n"))
        rw [hl4, log_err_log, hd, String.append_assoc]

/-- Every step of the interpret loop only appends well-formed report lines. -/
theorem interpretStep_log (c : Bool) (s : St) :
    ∃ d, GoodLog d ∧
      (StepRes.state (interpretStep c s)).log_buffer = s.log_buffer ++ d := by
  rcases hpop : popEnd s.stmts with _ | ⟨stmt, rest⟩
  · unfold interpretStep
    rw [hpop]
    cases c with
    | false => exact ⟨"", GoodLog.nil, (String.append_empty _).symm⟩
    | true =>
      rcases hd : driverCall Effect.closeWindow s with ⟨r, s5⟩
      have h5 : s5 = { s with effects := s.effects ++ [Effect.closeWindow] } :=
        (congrArg Prod.snd hd).symm
      simp only [hd]
      cases r with
      | ok => exact ⟨"", GoodLog.nil, by subst h5; exact (String.append_empty _).symm⟩
      | err => exact ⟨"", GoodLog.nil, by subst h5; exact (String.append_empty _).symm⟩
      | elem e => exact ⟨"", GoodLog.nil, by subst h5; exact (String.append_empty _).symm⟩
      | str t => exact ⟨"", GoodLog.nil, by subst h5; exact (String.append_empty _).symm⟩
      | bytes b => exact ⟨"", GoodLog.nil, by subst h5; exact (String.append_empty _).symm⟩
  · have hs : s.stmts = rest ++ [stmt] := popEnd_eq_some hpop
    cases hhe : s.had_error with
    | false =>
      rcases interpretStep_stmt_line c s stmt rest hs hhe with ⟨d, hg, hd⟩
      refine ⟨stmtLogLine stmt ++ d,
        GoodLog.append _ _ (GoodLog.info (Stmt.toString stmt)) hg, ?_⟩
      rw [hd, String.append_assoc]
    | true =>
      rcases hex : execute_stmt stmt ({ s with stmts := rest }) with ⟨r, s3⟩
      have hlog3 : ∃ d, GoodLog d ∧ s3.log_buffer = s.log_buffer ++ d := by
        rcases execute_stmt_log stmt ({ s with stmts := rest }) with ⟨d, hg, hd⟩
        rw [hex] at hd
        exact ⟨d, hg, hd⟩
      rcases hlog3 with ⟨d, hg, hd⟩
      cases r with
      | ok a =>
        rw [interpretStep_err_ok c s stmt rest s3 hs hhe hex]
        exact ⟨d, hg, hd⟩
      | error e =>
        rcases e with ⟨m, sev⟩
        cases sev with
        | Recoverable =>
          rw [interpretStep_err_recoverable c s stmt rest m s3 hs hhe hex]
          refine ⟨d ++ ("Error: " ++ m ++ "\n"),
            GoodLog.append _ _ hg (GoodLog.error m), ?_⟩
          show (log_err m s3).log_buffer = s.log_buffer ++ (d ++ ("Error: " ++ m ++ "\n"))
          rw [log_err_log, hd, String.append_assoc]
        | Exit =>
          rcases interpretStep_err_exit c s stmt rest m s3 hs hhe hex
            with ⟨s4, hdone | hdone, hl4, hq4⟩
          · rw [hdone]
            refine ⟨d ++ ("Error: " ++ m ++ "\n"),
              GoodLog.append _ _ hg (GoodLog.error m), ?_⟩
            show s4.log_buffer = s.log_buffer ++ (d ++ ("Error: " ++ m ++ "\n"))
            rw [hl4, log_err_log, hd, String.append_assoc]
          · rw [hdone]
            refine ⟨d ++ ("Error: " ++ m ++ "\n"),
              GoodLog.append _ _ hg (GoodLog.error m), ?_⟩
            show s4.log_buffer = s.log_buffer ++ (d ++ ("Error: " ++ m ++ "\n"))
            rw [hl4, log_err_log, hd, String.append_assoc]

/-- The whole run only appends well-formed report lines to the log. -/
theorem interpretLoop_log (c : Bool) : ∀ (fuel : Nat) (s : St),
    ∃ d, GoodLog d ∧ (interpretLoop c fuel s).2.log_buffer = s.log_buffer ++ d := by
  intro fuel
  induction fuel with
  | zero => intro s; exact ⟨"", GoodLog.nil, (String.append_empty _).symm⟩
  | succ f ih =>
    intro s
    unfold interpretLoop
    rcases hstep : interpretStep c s with s' | ⟨r, s'⟩
    · rcases interpretStep_log c s with ⟨d1, hg1, hd1⟩
      rw [hstep] at hd1
      rcases ih s' with ⟨d2, hg2, hd2⟩
      refine ⟨d1 ++ d2, GoodLog.append _ _ hg1 hg2, ?_⟩
      simp only []
      rw [hd2]
      have hd1' : s'.log_buffer = s.log_buffer ++ d1 := hd1
      rw [hd1', String.append_assoc]
    · rcases interpretStep_log c s with ⟨d1, hg1, hd1⟩
      rw [hstep] at hd1
      exact ⟨d1, hg1, by simpa using hd1⟩

/-- C1: every command failure constructed while the retry-active flag
(tried_again) is false has Recoverable severity, and every failure
constructed while it is true has Exit severity (the flag at construction
time equals the flag in the result state, since nothing runs after a
failure); consequently, once try-again has set the flag, any failure of a
dequeued statement before the marker is reached has Exit severity, and the
interpret loop ends the run on it (at most one retry pass per boundary). -/
theorem C1_severity_rule :
    (∀ (cs : CmdStmt) (s : St) (msg : Str) (sev : Severity) (s' : St),
      execute_cmd_stmt cs s = (.error (msg, sev), s') →
      sev = if s'.tried_again then Severity.Exit else Severity.Recoverable) ∧
    (∀ (stmt : Stmt) (s : St) (msg : Str) (sev : Severity) (s' : St),
      execute_stmt stmt s = (.error (msg, sev), s') →
      sev = if s'.tried_again then Severity.Exit else Severity.Recoverable) ∧
    (∀ (stmt : Stmt) (s : St) (msg : Str) (sev : Severity) (s' : St),
      s.tried_again = true → stmt ≠ Stmt.SetTryAgainFieldToFalse →
      execute_stmt stmt s = (.error (msg, sev), s') → sev = Severity.Exit) ∧
    (∀ (c : Bool) (s : St) (stmt : Stmt) (rest : List Stmt) (msg : Str)
       (sev : Severity) (s3 : St),
      s.stmts = rest ++ [stmt] → s.had_error = false → s.tried_again = true →
      stmt ≠ Stmt.SetTryAgainFieldToFalse →
      execute_stmt stmt (log_cmd (Stmt.toString stmt) { s with stmts := rest })
        = (.error (msg, sev), s3) →
      ∃ s4, interpretStep c s = .done (.finished true) s4 ∨
        interpretStep c s = .done .driverError s4) := by
  have hsev3 : ∀ (stmt : Stmt) (s : St) (msg : Str) (sev : Severity) (s' : St),
      s.tried_again = true → stmt ≠ Stmt.SetTryAgainFieldToFalse →
      execute_stmt stmt s = (.error (msg, sev), s') → sev = Severity.Exit := by
    intro stmt s msg sev s' hta hne hex
    have hta' : s'.tried_again = true := by
      have := execute_stmt_mono stmt hne s hta
      rw [hex] at this
      exact this
    have := execute_stmt_sev stmt s msg sev s' hex
    rw [hta'] at this
    simpa using this
  refine ⟨?_, ?_, hsev3, ?_⟩
  · intro cs s msg sev s' h
    exact (execute_cmd_stmt_cl cs).sev s msg sev s' h
  · intro stmt s msg sev s' h
    exact execute_stmt_sev stmt s msg sev s' h
  · intro c s stmt rest msg sev s3 hq hhe hta hne hex
    have hsev : sev = Severity.Exit := by
      refine hsev3 stmt (log_cmd (Stmt.toString stmt) { s with stmts := rest })
        msg sev s3 ?_ hne hex
      exact hta
    subst hsev
    rcases interpretStep_done_of_exit c s stmt rest msg s3 hq hhe hex
      with ⟨s4, hdone, _, _⟩
    exact ⟨s4, hdone⟩

theorem C1_witness :
    ∃ s4, interpretStep false
        ({ Interpreter.new (fun _ _ => DResp.err)
            [Stmt.Cmd (CmdStmt.mk Cmd.Click none)] false with
          tried_again := true, curr_elem := some (Elem.mk 0) } : St)
      = .done (.finished true) s4 ∨
      interpretStep false
        ({ Interpreter.new (fun _ _ => DResp.err)
            [Stmt.Cmd (CmdStmt.mk Cmd.Click none)] false with
          tried_again := true, curr_elem := some (Elem.mk 0) } : St)
      = .done .driverError s4 :=
  C1_severity_rule.2.2.2 false
    ({ Interpreter.new (fun _ _ => DResp.err)
        [Stmt.Cmd (CmdStmt.mk Cmd.Click none)] false with
      tried_again := true, curr_elem := some (Elem.mk 0) } : St)
    (Stmt.Cmd (CmdStmt.mk Cmd.Click none)) [] "Error clicking element"
    Severity.Exit _ rfl rfl rfl (fun h => Stmt.noConfusion h) rfl

/-- C2: a statement dequeued in error mode that is not a catch-error
boundary executes no side effects — the step only advances the queue and
pushes the statement onto the replay buffer (twice); a catch-error boundary
dequeued in error mode executes its attached chain exactly once, success
clears error mode, and a failure propagates with the severity computed
exactly as in normal mode. -/
theorem C2_error_mode :
    (∀ (c : Bool) (s : St) (stmt : Stmt) (rest : List Stmt),
      s.had_error = true → (∀ cs, stmt ≠ Stmt.CatchErr cs) →
      s.stmts = rest ++ [stmt] →
      interpretStep c s = .next { s with
        stmts := rest,
        stmts_since_last_error_handling :=
          (s.stmts_since_last_error_handling ++ [stmt]) ++ [stmt] }) ∧
    (∀ (stmt : Stmt) (s : St), s.had_error = true →
      (∀ cs, stmt ≠ Stmt.CatchErr cs) →
      execute_stmt stmt s = (.ok (), { s with
        stmts_since_last_error_handling :=
          (s.stmts_since_last_error_handling ++ [stmt]) ++ [stmt] })) ∧
    (∀ (cs : CmdStmt) (s : St), s.had_error = true →
      execute_stmt (Stmt.CatchErr cs) s =
        (match execute_cmd_stmt cs (pushReplay (Stmt.CatchErr cs) s) with
         | (.ok _, s') => (Except.ok (), { s' with had_error := false })
         | (.error e, s') => (Except.error e, s'))) ∧
    (∀ (cs : CmdStmt) (s : St) (msg : Str) (sev : Severity) (s' : St),
      s.had_error = true →
      execute_stmt (Stmt.CatchErr cs) s = (.error (msg, sev), s') →
      sev = if s'.tried_again then Severity.Exit else Severity.Recoverable) := by
  refine ⟨?_, ?_, ?_, ?_⟩
  · intro c s stmt rest hhe hnc hq
    exact interpretStep_skip c s stmt rest hq hhe hnc
  · intro stmt s hhe hnc
    exact execute_stmt_skip stmt s hhe hnc
  · intro cs s hhe
    exact execute_stmt_catch cs s hhe
  · intro cs s msg sev s' hhe hex
    exact execute_stmt_sev (Stmt.CatchErr cs) s msg sev s' hex

theorem C2_witness :
    interpretStep false
        ({ Interpreter.new (fun _ _ => DResp.ok) [Stmt.Comment "c"] false with
          had_error := true } : St)
      = .next { ({ Interpreter.new (fun _ _ => DResp.ok) [Stmt.Comment "c"] false with
          had_error := true } : St) with
        stmts := [],
        stmts_since_last_error_handling :=
          ([] ++ [Stmt.Comment "c"]) ++ [Stmt.Comment "c"] } :=
  C2_error_mode.1 false
    ({ Interpreter.new (fun _ _ => DResp.ok) [Stmt.Comment "c"] false with
      had_error := true } : St)
    (Stmt.Comment "c") [] rfl (fun _ h => Stmt.noConfusion h) rfl

/-- C3: try-again sets the retry flag, pushes the internal marker onto the
drain end of the pending vector, then pushes the replay buffer onto the
same end and clears it; repeated same-end removal therefore dequeues all
replayed statements before the marker; the flag is cleared exactly when the
marker is dispatched (in normal mode), no other statement ever clears it,
and the error-mode/retry-mode exclusion invariant guarantees that when the
marker is dequeued with the flag set it is dispatched in normal mode, so
the clear does happen there. -/
theorem C3_try_again_protocol :
    (∀ s : St, try_again s = (.ok (), { s with
        tried_again := true,
        stmts := (s.stmts ++ [Stmt.SetTryAgainFieldToFalse]) ++
          s.stmts_since_last_error_handling,
        stmts_since_last_error_handling := [] })) ∧
    (∀ s : St, drainOrder ((try_again s).2).stmts =
      s.stmts_since_last_error_handling.reverse ++
        Stmt.SetTryAgainFieldToFalse :: drainOrder s.stmts) ∧
    (∀ s : St, s.had_error = false →
      execute_stmt Stmt.SetTryAgainFieldToFalse s = (.ok (), { s with
        stmts_since_last_error_handling :=
          s.stmts_since_last_error_handling ++ [Stmt.SetTryAgainFieldToFalse],
        tried_again := false })) ∧
    (∀ (stmt : Stmt) (s : St), stmt ≠ Stmt.SetTryAgainFieldToFalse →
      s.tried_again = true → ((execute_stmt stmt s).2).tried_again = true) ∧
    (∀ (c : Bool) (s s' : St),
      ¬(s.had_error = true ∧ s.tried_again = true) →
      interpretStep c s = .next s' →
      ¬(s'.had_error = true ∧ s'.tried_again = true)) ∧
    (∀ (c : Bool) (s : St) (rest : List Stmt),
      ¬(s.had_error = true ∧ s.tried_again = true) →
      s.tried_again = true →
      s.stmts = rest ++ [Stmt.SetTryAgainFieldToFalse] →
      ∃ s', interpretStep c s = .next s' ∧ s'.tried_again = false ∧
        s'.stmts = rest) := by
  refine ⟨fun s => rfl, ?_, ?_, ?_, interpretStep_inv, ?_⟩
  · intro s
    rw [drainOrder_eq_reverse, drainOrder_eq_reverse]
    show ((s.stmts ++ [Stmt.SetTryAgainFieldToFalse]) ++
      s.stmts_since_last_error_handling).reverse = _
    simp
  · intro s hhe
    exact execute_stmt_marker s hhe
  · intro stmt s hne hta
    exact execute_stmt_mono stmt hne s hta
  · intro c s rest hinv hta hq
    have hhe : s.had_error = false := by
      cases hh : s.had_error with
      | false => rfl
      | true => exact absurd ⟨hh, hta⟩ hinv
    have hex := execute_stmt_marker
      (log_cmd (Stmt.toString Stmt.SetTryAgainFieldToFalse) { s with stmts := rest })
      (show (log_cmd (Stmt.toString Stmt.SetTryAgainFieldToFalse)
        { s with stmts := rest }).had_error = false from hhe)
    refine ⟨_, interpretStep_next_of_ok c s Stmt.SetTryAgainFieldToFalse rest _
      hq hhe hex, rfl, rfl⟩

theorem C3_witness :
    ∃ s', interpretStep false
        ({ Interpreter.new (fun _ _ => DResp.ok) [Stmt.SetTryAgainFieldToFalse] false with
          tried_again := true } : St) = .next s' ∧
      s'.tried_again = false ∧ s'.stmts = [] :=
  C3_try_again_protocol.2.2.2.2.2 false
    ({ Interpreter.new (fun _ _ => DResp.ok) [Stmt.SetTryAgainFieldToFalse] false with
      tried_again := true } : St)
    [] (fun h => Bool.noConfusion h.1) rfl rfl

/-- C7: the constructor stores the parsed statements reversed, and the
loop removes elements from the same end it later pushes retry material
onto (the back), so repeated removal visits the original statements in
script order; moreover every step leaves the remaining front segment of
the queue intact (it only removes the back element and possibly appends). -/
theorem C7_queue_discipline :
    (∀ (drv : Nat → Effect → DResp) (stmts : List Stmt) (d : Bool),
      (Interpreter.new drv stmts d).stmts = stmts.reverse) ∧
    (∀ l : List Stmt, drainOrder l = l.reverse) ∧
    (∀ (drv : Nat → Effect → DResp) (stmts : List Stmt) (d : Bool),
      drainOrder ((Interpreter.new drv stmts d).stmts) = stmts) ∧
    (∀ (s : St) (stmt : Stmt) (rest : List Stmt),
      s.stmts = rest ++ [stmt] → popEnd s.stmts = some (stmt, rest)) ∧
    (∀ (c : Bool) (s : St) (stmt : Stmt) (rest : List Stmt),
      s.stmts = rest ++ [stmt] →
      ∃ ext, (StepRes.state (interpretStep c s)).stmts = rest ++ ext) := by
  refine ⟨fun drv stmts d => rfl, drainOrder_eq_reverse, ?_, ?_, ?_⟩
  · intro drv stmts d
    rw [drainOrder_eq_reverse]
    exact List.reverse_reverse stmts
  · intro s stmt rest hq
    rw [hq]
    exact popEnd_concat rest stmt
  · intro c s stmt rest hq
    cases hhe : s.had_error with
    | true =>
      cases hcatch : (match stmt with
        | Stmt.CatchErr _ => true | _ => false) with
      | false =>
        have hnc : ∀ cs, stmt ≠ Stmt.CatchErr cs := by
          intro cs hc
          rw [hc] at hcatch
          exact Bool.noConfusion hcatch
        rw [interpretStep_skip c s stmt rest hq hhe hnc]
        exact ⟨[], (List.append_nil rest).symm⟩
      | true =>
        rcases hstmt : stmt with _ | _ | _ | _ | cs | _ <;>
          rw [hstmt] at hcatch <;> try exact Bool.noConfusion hcatch
        rw [hstmt] at hq
        rcases hex : execute_stmt (Stmt.CatchErr cs) ({ s with stmts := rest } : St)
          with ⟨r, s3⟩
        have hext := execute_stmt_ext (Stmt.CatchErr cs) ({ s with stmts := rest } : St)
        rw [hex] at hext
        rcases hext with ⟨ext, hext⟩
        rcases r with e | a
        · rcases e with ⟨msg, sev⟩
          rcases sev with _ | _
          · rcases interpretStep_err_exit c s (Stmt.CatchErr cs) rest msg s3 hq hhe hex
              with ⟨s4, hdone, _, hst⟩
            rcases hdone with hdone | hdone <;> rw [hdone] <;>
              exact ⟨ext, by rw [StepRes.state, hst]; exact hext⟩
          · rw [interpretStep_err_recoverable c s (Stmt.CatchErr cs) rest msg s3 hq hhe hex]
            exact ⟨ext, hext⟩
        · rw [interpretStep_err_ok c s (Stmt.CatchErr cs) rest s3 hq hhe hex]
          exact ⟨ext, hext⟩
    | false =>
      rcases hex : execute_stmt stmt
          (log_cmd (Stmt.toString stmt) ({ s with stmts := rest } : St))
        with ⟨r, s3⟩
      have hext := execute_stmt_ext stmt
        (log_cmd (Stmt.toString stmt) ({ s with stmts := rest } : St))
      rw [hex] at hext
      rcases hext with ⟨ext, hext⟩
      rcases r with e | a
      · rcases e with ⟨msg, sev⟩
        rcases sev with _ | _
        · rcases interpretStep_done_of_exit c s stmt rest msg s3 hq hhe hex
            with ⟨s4, hdone, _, hst⟩
          rcases hdone with hdone | hdone <;> rw [hdone] <;>
            exact ⟨ext, by rw [StepRes.state, hst]; exact hext⟩
        · rw [interpretStep_next_of_recoverable c s stmt rest msg s3 hq hhe hex]
          exact ⟨ext, hext⟩
      · rw [interpretStep_next_of_ok c s stmt rest s3 hq hhe hex]
        exact ⟨ext, hext⟩

theorem C7_witness :
    drainOrder ((Interpreter.new (fun _ _ => DResp.ok)
        [Stmt.Comment "a", Stmt.Comment "b", Stmt.Comment "c"] false).stmts)
      = [Stmt.Comment "a", Stmt.Comment "b", Stmt.Comment "c"] ∧
    (∃ ext, (StepRes.state (interpretStep false
        (Interpreter.new (fun _ _ => DResp.ok)
          [Stmt.Comment "a", Stmt.Comment "b"] false))).stmts
      = [Stmt.Comment "b"] ++ ext) :=
  ⟨C7_queue_discipline.2.2.1 (fun _ _ => DResp.ok)
      [Stmt.Comment "a", Stmt.Comment "b", Stmt.Comment "c"] false,
    C7_queue_discipline.2.2.2.2 false
      (Interpreter.new (fun _ _ => DResp.ok)
        [Stmt.Comment "a", Stmt.Comment "b"] false)
      (Stmt.Comment "a") [Stmt.Comment "b"] rfl⟩

/-- C8: a non-catch statement skipped in error mode is pushed onto the
replay buffer twice (once unconditionally on entry and once on the skip
path), so a subsequent try-again requeues it twice: the pending vector
after try-again contains the statement with multiplicity two beyond what
the old queue and old buffer already held. -/
theorem C8_double_replay :
    (∀ (stmt : Stmt) (s : St), s.had_error = true →
      (∀ cs, stmt ≠ Stmt.CatchErr cs) →
      ((execute_stmt stmt s).2).stmts_since_last_error_handling =
        (s.stmts_since_last_error_handling ++ [stmt]) ++ [stmt]) ∧
    (∀ (stmt : Stmt) (s : St), s.had_error = true →
      (∀ cs, stmt ≠ Stmt.CatchErr cs) →
      stmt ≠ Stmt.SetTryAgainFieldToFalse →
      ((try_again (execute_stmt stmt s).2).2).stmts.count stmt =
        s.stmts.count stmt +
          s.stmts_since_last_error_handling.count stmt + 2) := by
  constructor
  · intro stmt s hhe hnc
    rw [execute_stmt_skip stmt s hhe hnc]
  · intro stmt s hhe hnc hnm
    rw [execute_stmt_skip stmt s hhe hnc]
    show ((s.stmts ++ [Stmt.SetTryAgainFieldToFalse]) ++
      ((s.stmts_since_last_error_handling ++ [stmt]) ++ [stmt])).count stmt = _
    have hm : ([Stmt.SetTryAgainFieldToFalse].count stmt) = 0 := by
      rw [List.count_singleton]
      have hb : (Stmt.SetTryAgainFieldToFalse == stmt) = false := by
        cases hb : Stmt.SetTryAgainFieldToFalse == stmt with
        | false => rfl
        | true => exact absurd (eq_of_beq hb).symm hnm
      rw [hb]
      rfl
    have hone : ([stmt].count stmt) = 1 := by
      rw [List.count_singleton, beq_self_eq_true]
      rfl
    simp only [List.count_append, hm, hone]
    omega

theorem C8_witness :
    ((try_again (execute_stmt (Stmt.Comment "c")
        ({ Interpreter.new (fun _ _ => DResp.ok) [] false with
          had_error := true } : St)).2).2).stmts.count (Stmt.Comment "c") =
      (({ Interpreter.new (fun _ _ => DResp.ok) [] false with
          had_error := true } : St)).stmts.count (Stmt.Comment "c") +
        (({ Interpreter.new (fun _ _ => DResp.ok) [] false with
          had_error := true } : St)).stmts_since_last_error_handling.count
            (Stmt.Comment "c") + 2 :=
  C8_double_replay.2 (Stmt.Comment "c")
    ({ Interpreter.new (fun _ _ => DResp.ok) [] false with
      had_error := true } : St)
    rfl (fun _ h => Stmt.noConfusion h) (fun h => Stmt.noConfusion h)

/-- C9: the screenshot routine appends its Info log line before asking the
driver for the capture, so the line is present in the log whether or not
the capture succeeds; on driver failure the log has grown by that line
while the screenshot buffer is unchanged (the log is not an atomic record
of completed captures). -/
theorem C9_screenshot_log_order :
    (∀ s : St, ((screenshot s).2).log_buffer =
      s.log_buffer ++ ("Info: " ++ "Taking a screenshot" ++ "\n")) ∧
    (∀ (s : St) (e : RuntimeError) (s' : St),
      screenshot s = (.error e, s') →
      s'.log_buffer = s.log_buffer ++ ("Info: " ++ "Taking a screenshot" ++ "\n") ∧
      s'.screenshot_buffer = s.screenshot_buffer) := by
  have key : ∀ s : St,
      ((screenshot s).2).log_buffer =
        s.log_buffer ++ ("Info: " ++ "Taking a screenshot" ++ "\n") ∧
      (∀ (e : RuntimeError) (s' : St), screenshot s = (.error e, s') →
        s'.screenshot_buffer = s.screenshot_buffer) := by
    intro s
    have h0 : screenshot s =
        (asBytes (s.drv s.effects.length Effect.screenshot) "Error taking screenshot."
          >>= fun ss => M.modifyS fun s2 =>
            { s2 with screenshot_buffer := s2.screenshot_buffer ++ [ss] })
          ((driverCall Effect.screenshot (log_cmd "Taking a screenshot" s)).2) := rfl
    rcases hd : s.drv s.effects.length Effect.screenshot with _ | _ | e0 | v0 | b0 <;>
      rw [hd] at h0 <;>
      refine ⟨congrArg (fun p => (Prod.snd p).log_buffer) h0, ?_⟩ <;>
      intro e s' hex <;>
      have h2 := h0.symm.trans hex
    case ok =>
      have h3 : ((Except.error (error
            (driverCall Effect.screenshot (log_cmd "Taking a screenshot" s)).2
            "Error taking screenshot.") : Except RuntimeError Unit),
          (driverCall Effect.screenshot (log_cmd "Taking a screenshot" s)).2) =
          ((Except.error e : Except RuntimeError Unit), s') := h2
      injection h3 with h4 h5
      subst h5
      rfl
    case err =>
      have h3 : ((Except.error (error
            (driverCall Effect.screenshot (log_cmd "Taking a screenshot" s)).2
            "Error taking screenshot.") : Except RuntimeError Unit),
          (driverCall Effect.screenshot (log_cmd "Taking a screenshot" s)).2) =
          ((Except.error e : Except RuntimeError Unit), s') := h2
      injection h3 with h4 h5
      subst h5
      rfl
    case elem =>
      have h3 : ((Except.error (error
            (driverCall Effect.screenshot (log_cmd "Taking a screenshot" s)).2
            "Error taking screenshot.") : Except RuntimeError Unit),
          (driverCall Effect.screenshot (log_cmd "Taking a screenshot" s)).2) =
          ((Except.error e : Except RuntimeError Unit), s') := h2
      injection h3 with h4 h5
      subst h5
      rfl
    case str =>
      have h3 : ((Except.error (error
            (driverCall Effect.screenshot (log_cmd "Taking a screenshot" s)).2
            "Error taking screenshot.") : Except RuntimeError Unit),
          (driverCall Effect.screenshot (log_cmd "Taking a screenshot" s)).2) =
          ((Except.error e : Except RuntimeError Unit), s') := h2
      injection h3 with h4 h5
      subst h5
      rfl
    case bytes =>
      have h3 : ((Except.ok () : Except RuntimeError Unit),
          ({ (driverCall Effect.screenshot (log_cmd "Taking a screenshot" s)).2 with
            screenshot_buffer :=
              (driverCall Effect.screenshot
                (log_cmd "Taking a screenshot" s)).2.screenshot_buffer ++ [b0] } : St)) =
          ((Except.error e : Except RuntimeError Unit), s') := h2
      injection h3 with h4 h5
      exact Except.noConfusion h4
  constructor
  · intro s
    exact (key s).1
  · intro s e s' hex
    refine ⟨?_, (key s).2 e s' hex⟩
    have h1 := (key s).1
    rw [hex] at h1
    exact h1

theorem C9_witness :
    ((screenshot (Interpreter.new (fun _ _ => DResp.err) [] false)).2).log_buffer =
      (Interpreter.new (fun _ _ => DResp.err) [] false).log_buffer ++
        ("Info: " ++ "Taking a screenshot" ++ "\n") ∧
    ((screenshot (Interpreter.new (fun _ _ => DResp.err) [] false)).2).screenshot_buffer =
      (Interpreter.new (fun _ _ => DResp.err) [] false).screenshot_buffer :=
  C9_screenshot_log_order.2 (Interpreter.new (fun _ _ => DResp.err) [] false)
    ("Error taking screenshot.", Severity.Recoverable) _ rfl

/-- C10: a locate (with or without scroll) that fails leaves the current
element unchanged; focus moves only when the full locate pipeline,
including the scroll-into-view and demo steps inside set-current-element,
succeeds, in which case the new focus is exactly the element found. -/
theorem C10_focus_on_failure :
    (∀ (lp : CmdParam) (s : St) (e : RuntimeError) (s' : St),
      execute_cmd (Cmd.Locate lp) s = (.error e, s') →
      s'.curr_elem = s.curr_elem) ∧
    (∀ (lp : CmdParam) (s : St) (e : RuntimeError) (s' : St),
      execute_cmd (Cmd.LocateNoScroll lp) s = (.error e, s') →
      s'.curr_elem = s.curr_elem) ∧
    (∀ (el : Elem) (sc : Bool) (s : St) (e : RuntimeError) (s' : St),
      set_curr_elem el sc s = (.error e, s') → s'.curr_elem = s.curr_elem) ∧
    (∀ (el : Elem) (sc : Bool) (s : St) (a : Unit) (s' : St),
      set_curr_elem el sc s = (.ok a, s') → s'.curr_elem = some el) := by
  refine ⟨?_, ?_, set_curr_elem_err_curr, set_curr_elem_ok_curr⟩
  · intro lp s e s' hex
    exact execute_cmd_locate_err_curr lp true s e s' hex
  · intro lp s e s' hex
    exact execute_cmd_locate_err_curr lp false s e s' hex

theorem C10_witness :
    ((execute_cmd (Cmd.Locate (CmdParam.String "x"))
        (Interpreter.new (fun _ _ => DResp.err) [] false)).2).curr_elem =
      (Interpreter.new (fun _ _ => DResp.err) [] false).curr_elem :=
  C10_focus_on_failure.1 (CmdParam.String "x")
    (Interpreter.new (fun _ _ => DResp.err) [] false)
    ("Could not locate the element", Severity.Recoverable) _ rfl

/-- C5: the run logs exactly one Info statement line per statement dequeued
outside error mode (followed only by the dispatched command's own
well-formed contextual lines), logs no statement line for a non-catch
statement dequeued in error mode, and every line ever appended to the log
buffer is an Info: or Error: line terminated by a newline. -/
theorem C5_log_discipline :
    (∀ stmt : Stmt, stmtLogLine stmt = "Info: " ++ Stmt.toString stmt ++ "\n") ∧
    (∀ (msg : Str) (s : St), (log_cmd msg s).log_buffer =
      s.log_buffer ++ ("Info: " ++ msg ++ "\n")) ∧
    (∀ (msg : Str) (s : St), (log_err msg s).log_buffer =
      s.log_buffer ++ ("Error: " ++ msg ++ "\n")) ∧
    (∀ (c : Bool) (s : St) (stmt : Stmt) (rest : List Stmt),
      s.stmts = rest ++ [stmt] → s.had_error = false →
      ∃ d, GoodLog d ∧ (StepRes.state (interpretStep c s)).log_buffer =
        (s.log_buffer ++ stmtLogLine stmt) ++ d) ∧
    (∀ (c : Bool) (s : St) (stmt : Stmt) (rest : List Stmt),
      s.stmts = rest ++ [stmt] → s.had_error = true →
      (∀ cs, stmt ≠ Stmt.CatchErr cs) →
      (StepRes.state (interpretStep c s)).log_buffer = s.log_buffer) ∧
    (∀ (c : Bool) (fuel : Nat) (s : St),
      ∃ d, GoodLog d ∧ (interpretLoop c fuel s).2.log_buffer =
        s.log_buffer ++ d) := by
  refine ⟨fun stmt => rfl, log_cmd_log, log_err_log,
    interpretStep_stmt_line, ?_, interpretLoop_log⟩
  intro c s stmt rest hq hhe hnc
  rw [interpretStep_skip c s stmt rest hq hhe hnc]
  rfl

theorem C5_witness :
    ∃ d, GoodLog d ∧
      (StepRes.state (interpretStep false
        (Interpreter.new (fun _ _ => DResp.ok) [Stmt.Comment "hello"] false))).log_buffer =
      ((Interpreter.new (fun _ _ => DResp.ok) [Stmt.Comment "hello"] false).log_buffer
        ++ stmtLogLine (Stmt.Comment "hello")) ++ d :=
  C5_log_discipline.2.2.2.1 false
    (Interpreter.new (fun _ _ => DResp.ok) [Stmt.Comment "hello"] false)
    (Stmt.Comment "hello") [] rfl rfl

/-- C4: each locate pass tries the nine strategies of passQueries in order,
only the first with a poll budget (1-second granularity) and the remaining
eight without waiting; the full algorithm runs up to three passes with
budgets 0, 5, 10 in that order (the canonical attempt list allPassQueries);
if no query in the page ever yields an element the locate fails with the
could-not-locate error after issuing exactly the 27 queries, and if some
query yields an element while all earlier queries in the canonical order
miss, the algorithm stops at that query and hands the element to the
focus-setting step (so a page matching both placeholder and identifier
resolves via placeholder). -/
theorem C4_locate_algorithm :
    (∀ (l : Str) (w : Nat), (passQueries l w).map (fun q => q.wait) =
      some (w, 1) :: List.replicate 8 none) ∧
    (∀ l : Str, allPassQueries l =
      passQueries l 0 ++ passQueries l 5 ++ passQueries l 10) ∧
    (∀ (l : Str) (sc : Bool) (s : St),
      (∀ n q e, s.drv n (Effect.query q) ≠ DResp.elem e) →
      locate (CmdParam.String l) sc s =
        (.error ("Could not locate the element",
           if s.tried_again then Severity.Exit else Severity.Recoverable),
         { s with effects := s.effects ++ (allPassQueries l).map Effect.query })) ∧
    (∀ (l : Str) (sc : Bool) (s : St) (pre : List LocateQuery) (q : LocateQuery)
       (post : List LocateQuery) (e : Elem),
      allPassQueries l = pre ++ q :: post →
      (∀ n q' e', q' ∈ pre → s.drv n (Effect.query q') ≠ DResp.elem e') →
      (∀ n, s.drv n (Effect.query q) = DResp.elem e) →
      locate (CmdParam.String l) sc s =
        (set_curr_elem e sc >>= fun _ => (Pure.pure () : M Unit))
          { s with effects := s.effects ++ pre.map Effect.query ++ [Effect.query q] }) := by
  refine ⟨fun l w => rfl, fun l => rfl, ?_, ?_⟩
  · intro l sc s h
    rw [locate_app_string, locateLoop_miss l sc [0, 5, 10] s h, flatten_passes]
  · intro l sc s pre q post e hsplit hmiss hhit
    rw [locate_app_string]
    exact locateLoop_hit l sc e [0, 5, 10] s pre q post
      (by rw [flatten_passes]; exact hsplit) hmiss hhit

theorem C4_witness :
    (Interpreter.new (fun _ eff => match eff with
      | Effect.query q =>
        if q.by_ = By.XPath ("//input[@placeholder=\x27Search\x27]") then
          DResp.elem (Elem.mk 1)
        else if q.by_ = By.Id "Search" then DResp.elem (Elem.mk 2)
        else DResp.err
      | _ => DResp.ok) [] false).drv 0
      (Effect.query { by_ := By.Id "Search", wait := none }) =
      DResp.elem (Elem.mk 2) ∧
    ((locate (CmdParam.String "Search") false
      (Interpreter.new (fun _ eff => match eff with
        | Effect.query q =>
          if q.by_ = By.XPath ("//input[@placeholder=\x27Search\x27]") then
            DResp.elem (Elem.mk 1)
          else if q.by_ = By.Id "Search" then DResp.elem (Elem.mk 2)
          else DResp.err
        | _ => DResp.ok) [] false)).2).curr_elem = some (Elem.mk 1) := by
  refine ⟨rfl, ?_⟩
  rw [C4_locate_algorithm.2.2.2 "Search" false
    (Interpreter.new (fun _ eff => match eff with
      | Effect.query q =>
        if q.by_ = By.XPath ("//input[@placeholder=\x27Search\x27]") then
          DResp.elem (Elem.mk 1)
        else if q.by_ = By.Id "Search" then DResp.elem (Elem.mk 2)
        else DResp.err
      | _ => DResp.ok) [] false)
    []
    { by_ := By.XPath ("//input[@placeholder=\x27Search\x27]"), wait := some (0, 1) }
    ((allPassQueries "Search").tail) (Elem.mk 1)
    rfl (fun n q' e' hq' => absurd hq' (List.not_mem_nil q'))
    (fun n => rfl)]
  rfl

/-- C6 counterexample: the original claim says a failing probe leaves the
log buffer and the focus unchanged; both are false. A screenshot probe
that fails at the driver has already appended its Info line to the log, and
a drag-to probe whose internal locate succeeds but whose drag call fails
has already moved the focus to the located element. -/
theorem C6_counterexample :
    ((execute_cmd Cmd.Screenshot
        (Interpreter.new (fun _ _ => DResp.err) [] false)).1 =
      Except.error ("Error taking screenshot.", Severity.Recoverable)) ∧
    ((execute_if_stmt (IfStmt.mk Cmd.Screenshot (CmdStmt.mk Cmd.Click none))
        (Interpreter.new (fun _ _ => DResp.err) [] false)).1 = Except.ok ()) ∧
    ((execute_if_stmt (IfStmt.mk Cmd.Screenshot (CmdStmt.mk Cmd.Click none))
        (Interpreter.new (fun _ _ => DResp.err) [] false)).2.log_buffer ≠
      (Interpreter.new (fun _ _ => DResp.err) [] false).log_buffer) ∧
    ((execute_cmd (Cmd.DragTo (CmdParam.String "x"))
        ({ Interpreter.new (fun _ eff => match eff with
            | Effect.query _ => DResp.elem (Elem.mk 1)
            | _ => DResp.err) [] false with
          curr_elem := some (Elem.mk 0) } : St)).1 =
      Except.error ("Error dragging element.", Severity.Recoverable)) ∧
    ((execute_if_stmt
        (IfStmt.mk (Cmd.DragTo (CmdParam.String "x")) (CmdStmt.mk Cmd.Click none))
        ({ Interpreter.new (fun _ eff => match eff with
            | Effect.query _ => DResp.elem (Elem.mk 1)
            | _ => DResp.err) [] false with
          curr_elem := some (Elem.mk 0) } : St)).1 = Except.ok ()) ∧
    ((execute_if_stmt
        (IfStmt.mk (Cmd.DragTo (CmdParam.String "x")) (CmdStmt.mk Cmd.Click none))
        ({ Interpreter.new (fun _ eff => match eff with
            | Effect.query _ => DResp.elem (Elem.mk 1)
            | _ => DResp.err) [] false with
          curr_elem := some (Elem.mk 0) } : St)).2.curr_elem ≠
      some (Elem.mk 0)) := by
  refine ⟨rfl, rfl, ?_, rfl, rfl, ?_⟩
  · decide
  · decide

/-- C6 (amended): if the probe command of a conditional fails, the
conditional as a whole succeeds and raises no error, and the interpreter's
error-mode flag, retry flag, variable environment and screenshot buffer are
unchanged — but the log buffer may have grown by the probe's own lines and
the focus may have moved (by a probe such as screenshot or drag-to, see the
counterexample); if the probe succeeds, the body command chain runs from
the probe's result state and its outcome propagates as the conditional's
outcome. -/
theorem C6_conditional :
    (∀ (is : IfStmt) (s : St) (e : RuntimeError) (s1 : St),
      execute_cmd is.condition s = (.error e, s1) →
      execute_if_stmt is s = (.ok (), s1) ∧
      s1.had_error = s.had_error ∧
      s1.tried_again = s.tried_again ∧
      s1.environment = s.environment ∧
      s1.screenshot_buffer = s.screenshot_buffer) ∧
    (∀ (is : IfStmt) (s : St) (a : Unit) (s1 : St),
      execute_cmd is.condition s = (.ok a, s1) →
      execute_if_stmt is s = execute_cmd_stmt is.then_branch s1) := by
  constructor
  · intro is s e s1 hex
    have h3 := execute_cmd_probe is.condition s e s1 hex
    have hhe := (execute_cmd_cl is.condition).he s
    rw [hex] at hhe
    exact ⟨execute_if_stmt_probe_err is s e s1 hex, hhe,
      congrArg (fun p => p.2.2) h3, congrArg (fun p => p.1) h3,
      congrArg (fun p => p.2.1) h3⟩
  · intro is s a s1 hex
    exact execute_if_stmt_probe_ok is s a s1 hex

theorem C6_witness :
    execute_if_stmt (IfStmt.mk Cmd.Screenshot (CmdStmt.mk Cmd.Click none))
        (Interpreter.new (fun _ _ => DResp.err) [] false) =
      (.ok (), (execute_cmd Cmd.Screenshot
        (Interpreter.new (fun _ _ => DResp.err) [] false)).2) ∧
    ((execute_cmd Cmd.Screenshot
        (Interpreter.new (fun _ _ => DResp.err) [] false)).2).screenshot_buffer =
      (Interpreter.new (fun _ _ => DResp.err) [] false).screenshot_buffer :=
  have h := C6_conditional.1
    (IfStmt.mk Cmd.Screenshot (CmdStmt.mk Cmd.Click none))
    (Interpreter.new (fun _ _ => DResp.err) [] false)
    ("Error taking screenshot.", Severity.Recoverable)
    (execute_cmd Cmd.Screenshot (Interpreter.new (fun _ _ => DResp.err) [] false)).2
    rfl
  ⟨h.1, h.2.2.2.2⟩

end SchnauzerUI
